import Mathlib

/-!
Offline cache proxy (`sw.js`).

A shallow embedding of the service worker of the poultry-farm dashboard:
the install, activate and fetch handlers of `src/sw.js`, over an explicit
model of the Cache Storage interface and of the network they call.

Every handler is a function from the environment (what the network and the
storage answer) and the cache storage before the event to a `Run`: the cache
storage once every operation started by the handler has settled, the list of
operations the handler issued, in order, and how the promise handed to
`waitUntil` / `respondWith` settled.
-/

set_option autoImplicit false

namespace SW

/-! Data model -/

/-- A stored or fetched response: `status`, `type` ('basic', 'cors', 'opaque', ...) and body. -/
structure Response where
  status : Nat
  type : String
  body : String
deriving DecidableEq, Repr

/-- An intercepted request: `event.request.url` and `event.request.mode`. -/
structure Request where
  url : String
  mode : String
deriving DecidableEq, Repr

/-- One cache generation: request key (the request URL) to stored response, oldest entry first. -/
abbrev Cache := List (String × Response)

/-- The cache storage `caches`: generation name to generation, in creation order. -/
abbrev CacheStorage := List (String × Cache)

/-- How a promise settles. -/
inductive Settled (α : Type) where
  | resolved (value : α)
  | rejected
deriving DecidableEq, Repr

/-- A window client as `clients.matchAll({ type: 'window' })` reports it: its id, the URL
it shows (an absolute URL) and whether it has a `focus` method (`'focus' in client`). -/
structure WindowClient where
  id : String
  url : String
  canFocus : Bool
deriving DecidableEq, Repr

/-- The `data` of a notification: the target URL. -/
structure NotificationData where
  url : String
deriving DecidableEq, Repr

/-- A notification: its title and the options it is shown with. -/
structure Notification where
  title : String
  body : String
  icon : String
  badge : String
  vibrate : List Nat
  data : NotificationData
deriving DecidableEq, Repr

/-- The operations a handler issues on the platform. -/
inductive Effect where
  | cachesOpen (name : String)
  | cachesMatch (key : String)
  | cachesKeys
  | cachesDelete (name : String)
  | cachePut (name : String) (key : String) (response : Response)
  | fetch (url : String)
  | skipWaiting
  | clientsClaim
  | setTimeout (ms : Nat)
  | showNotification (notification : Notification)
  | notificationClose
  | clientsMatchAll
  | clientFocus (client : WindowClient)
  | openWindow (url : String)
deriving DecidableEq, Repr

/-- What the platform answers: the worker's origin (`self.location.origin`), the outcome of a
network fetch of a URL, and which storage operations reject. -/
structure Env where
  origin : String
  net : String → Settled (Option Response)
  openFails : String → Bool
  putFails : String → String → Bool
  keysFails : Bool
  deleteFails : String → Bool

/-- The result of running a handler. -/
structure Run (α : Type) where
  storage : CacheStorage
  trace : List Effect
  outcome : α

/-- How an event handler without a response ends: it returned without calling
`event.waitUntil`, it threw, or it called `event.waitUntil` on a promise that settles as
given. -/
inductive Ending where
  | returned
  | threw
  | awaited (promise : Settled Unit)
deriving DecidableEq, Repr

/-- What the platform answers to the notification calls: whether `showNotification`,
`client.focus` and `clients.openWindow` reject, and whether `clients.openWindow` exists. -/
structure UiEnv where
  showNotificationFails : Bool
  focusFails : Bool
  openWindowAvailable : Bool
  openWindowFails : Bool

/-- A parsed push payload: `title`, `body` and the optional `url`. -/
structure PushPayload where
  title : String
  body : String
  url : Option String
deriving DecidableEq, Repr

/-! Constants of `sw.js` -/

def CACHE_NAME : String := "poultry-farm-v3"

def urlsToCache : List String :=
  [ "/",
    "/index.html",
    "/login.html",
    "/dashboard.html",
    "/offline.html",
    "/styles.css",
    "/app.js",
    "/script.js",
    "/pwa-install.js",
    "/manifest.json",
    "/icons/icon-72x72.png",
    "/icons/icon-96x96.png",
    "/icons/icon-128x128.png",
    "/icons/icon-144x144.png",
    "/icons/icon-152x152.png",
    "/icons/icon-192x192.png",
    "/icons/icon-384x384.png",
    "/icons/icon-512x512.png" ]

/-! Platform model: strings and URLs -/

/-- JavaScript `s.startsWith(p)`. -/
def startsWith (s p : String) : Bool :=
  p.data.isPrefixOf s.data

/-- Characters that end the authority part of a serialised URL. -/
def endsAuthority (c : Char) : Bool :=
  c = '/' || c = '?' || c = '#'

/-- Origin of a serialised URL: scheme, "://", host and port, that is everything before the
path; `none` when the URL has no "://" after its scheme (an opaque origin). -/
def urlOrigin (url : String) : Option String :=
  match url.data.dropWhile (fun c => c ≠ ':') with
  | ':' :: '/' :: '/' :: rest =>
      some ⟨url.data.takeWhile (fun c => c ≠ ':') ++ ':' :: '/' :: '/' ::
        rest.takeWhile (fun c => !endsAuthority c)⟩
  | _ => none

/-- Resolution of an absolute-path reference such as '/offline.html' against the worker's
location: the origin followed by the path. -/
def resolveUrl (env : Env) (path : String) : String :=
  env.origin ++ path

/-! Platform model: Cache Storage -/

/-- The call `cache.match(key)` on one generation. -/
def cache_match (c : Cache) (key : String) : Option Response :=
  (c.find? (fun e => e.1 = key)).map (fun e => e.2)

/-- The call `caches.match(key)`: every generation is searched, in creation order, and the
first stored response is the answer. -/
def caches_match (s : CacheStorage) (key : String) : Option Response :=
  s.findSome? (fun g => cache_match g.2 key)

/-- The generation stored under `name`, if any. -/
def caches_get (s : CacheStorage) (name : String) : Option Cache :=
  (s.find? (fun g => g.1 = name)).map (fun g => g.2)

/-- The call `caches.keys()`. -/
def caches_keys (s : CacheStorage) : List String :=
  s.map (fun g => g.1)

/-- The call `caches.open(name)`: the generation is created, empty, when absent. -/
def caches_open (s : CacheStorage) (name : String) : CacheStorage :=
  if name ∈ caches_keys s then s else s ++ [(name, [])]

/-- The call `caches.delete(name)`. -/
def caches_delete (s : CacheStorage) (name : String) : CacheStorage :=
  s.filter (fun g => g.1 ≠ name)

/-- A put into one generation: the entry of the key is replaced. -/
def Cache.put (c : Cache) (key : String) (r : Response) : Cache :=
  c.filter (fun e => e.1 ≠ key) ++ [(key, r)]

/-- A batch of puts into one generation, in order. -/
def Cache.putAll (c : Cache) (entries : List (String × Response)) : Cache :=
  entries.foldl (fun acc e => Cache.put acc e.1 e.2) c

/-- The keys of one generation, oldest entry first. -/
def Cache.keys (c : Cache) : List String :=
  c.map (fun e => e.1)

/-- The call `cache.put(key, r)` on the generation `name`. -/
def cache_put (s : CacheStorage) (name key : String) (r : Response) : CacheStorage :=
  s.map (fun g => if g.1 = name then (g.1, Cache.put g.2 key r) else g)

/-- The response `cache.addAll` stores for a URL: the fetch has to resolve with a response
whose status is an ok status (200 to 299) other than 206; otherwise `addAll` rejects. -/
def precacheResponse (env : Env) (url : String) : Option Response :=
  match env.net url with
  | .resolved (some r) =>
      if 200 ≤ r.status ∧ r.status ≤ 299 ∧ r.status ≠ 206 then some r else none
  | _ => none

/-- Whether the precache fetch of every URL of the list succeeds. -/
def precacheOk (env : Env) (urls : List String) : Bool :=
  urls.all (fun u => (precacheResponse env (resolveUrl env u)).isSome)

/-- The entries `cache.addAll(urls)` has to store: resolved URL and fetched response. -/
def precacheEntries (env : Env) (urls : List String) : List (String × Response) :=
  urls.filterMap (fun u =>
    (precacheResponse env (resolveUrl env u)).map (fun r => (resolveUrl env u, r)))

/-- A batch of puts into the generation `name`, in order. -/
def cache_putAll (s : CacheStorage) (name : String) (entries : List (String × Response)) :
    CacheStorage :=
  entries.foldl (fun acc e => cache_put acc name e.1 e.2) s

/-- The call `cache.addAll(urls)` on the generation `name`: every URL is fetched; when a fetch
fails, or two URLs of the batch are the same, the call rejects (`none`) and nothing is stored;
otherwise every response is stored. -/
def cache_addAll (env : Env) (s : CacheStorage) (name : String) (urls : List String) :
    Option CacheStorage :=
  if precacheOk env urls ∧ (urls.map (resolveUrl env)).Nodup then
    some (cache_putAll s name (precacheEntries env urls))
  else none

/-- The operations issued by `cache.addAll(urls)`: one fetch per URL, then, when the call
succeeds, one put per URL. -/
def addAllTrace (env : Env) (name : String) (urls : List String) : List Effect :=
  urls.map (fun u => Effect.fetch (resolveUrl env u)) ++
    (if precacheOk env urls ∧ (urls.map (resolveUrl env)).Nodup then
      (precacheEntries env urls).map (fun e => Effect.cachePut name e.1 e.2)
    else [])

/-! The handlers of `sw.js` -/

/-- The install handler, for a cache name and a manifest:
`caches.open(name).then(cache => cache.addAll(urls)).then(() => self.skipWaiting())`. -/
def installWith (name : String) (urls : List String) (env : Env) (s : CacheStorage) :
    Run (Settled Unit) :=
  if env.openFails name then
    ⟨s, [Effect.cachesOpen name], Settled.rejected⟩
  else
    match cache_addAll env (caches_open s name) name urls with
    | none =>
        ⟨caches_open s name, Effect.cachesOpen name :: addAllTrace env name urls,
          Settled.rejected⟩
    | some s2 =>
        ⟨s2, Effect.cachesOpen name :: addAllTrace env name urls ++ [Effect.skipWaiting],
          Settled.resolved ()⟩

/-- The install handler of `sw.js`. -/
def install (env : Env) (s : CacheStorage) : Run (Settled Unit) :=
  installWith CACHE_NAME urlsToCache env s

/-- The stale generation names the activate handler asks to delete, in order. -/
def staleNames (s : CacheStorage) : List String :=
  (caches_keys s).filter (fun cacheName => cacheName ≠ CACHE_NAME)

/-- The deletions started by the activate handler, each carried out unless it rejects. -/
def deleteAll (env : Env) (s : CacheStorage) (names : List String) : CacheStorage :=
  names.foldl (fun acc n => if env.deleteFails n then acc else caches_delete acc n) s

/-- The activate handler:
`caches.keys().then(names => Promise.all(names.map(n => { if (n !== CACHE_NAME) return
caches.delete(n); }))).then(() => self.clients.claim())`. Every deletion is started before
any settles; `Promise.all` rejects when one of them rejects. -/
def activate (env : Env) (s : CacheStorage) : Run (Settled Unit) :=
  if env.keysFails then
    ⟨s, [Effect.cachesKeys], Settled.rejected⟩
  else if (staleNames s).any env.deleteFails then
    ⟨deleteAll env s (staleNames s),
      Effect.cachesKeys :: (staleNames s).map Effect.cachesDelete, Settled.rejected⟩
  else
    ⟨deleteAll env s (staleNames s),
      Effect.cachesKeys :: (staleNames s).map Effect.cachesDelete ++ [Effect.clientsClaim],
      Settled.resolved ()⟩

/-- The caching criteria of the fetch handler, negated as in the source:
`!response || response.status !== 200 || response.type !== 'basic'`. -/
def notCacheable (response : Option Response) : Bool :=
  match response with
  | none => true
  | some r => r.status ≠ 200 || r.type ≠ "basic"

/-- The storage after the fire-and-forget
`caches.open(CACHE_NAME).then(cache => { cache.put(event.request, responseToCache); })`. -/
def storeCopy (env : Env) (s : CacheStorage) (key : String) (r : Response) : CacheStorage :=
  if env.openFails CACHE_NAME then s
  else if env.putFails CACHE_NAME key then caches_open s CACHE_NAME
  else cache_put (caches_open s CACHE_NAME) CACHE_NAME key r

/-- The operations issued by the fire-and-forget store. -/
def storeTrace (env : Env) (key : String) (r : Response) : List Effect :=
  if env.openFails CACHE_NAME then [Effect.cachesOpen CACHE_NAME]
  else [Effect.cachesOpen CACHE_NAME, Effect.cachePut CACHE_NAME key r]

/-- The fetch handler. The outcome is `none` when the handler returns without calling
`event.respondWith`, and otherwise how the promise passed to `respondWith` settles; a promise
resolved with `none` is one resolved with `undefined`. -/
def fetchHandler (env : Env) (s : CacheStorage) (request : Request) :
    Run (Option (Settled (Option Response))) :=
  if !startsWith request.url env.origin then
    ⟨s, [], none⟩
  else
    match caches_match s request.url with
    | some response =>
        ⟨s, [Effect.cachesMatch request.url], some (Settled.resolved (some response))⟩
    | none =>
        match env.net request.url with
        | Settled.resolved response =>
            if notCacheable response then
              ⟨s, [Effect.cachesMatch request.url, Effect.fetch request.url],
                some (Settled.resolved response)⟩
            else
              match response with
              | none =>
                  ⟨s, [Effect.cachesMatch request.url, Effect.fetch request.url],
                    some (Settled.resolved none)⟩
              | some r =>
                  ⟨storeCopy env s request.url r,
                    [Effect.cachesMatch request.url, Effect.fetch request.url] ++
                      storeTrace env request.url r,
                    some (Settled.resolved (some r))⟩
        | Settled.rejected =>
            if request.mode = "navigate" then
              ⟨s, [Effect.cachesMatch request.url, Effect.fetch request.url,
                    Effect.cachesMatch (resolveUrl env "/offline.html")],
                some (Settled.resolved (caches_match s (resolveUrl env "/offline.html")))⟩
            else
              ⟨s, [Effect.cachesMatch request.url, Effect.fetch request.url,
                    Effect.cachesMatch (resolveUrl env "/offline.html")],
                some (Settled.resolved (caches_match s (resolveUrl env "/offline.html")))⟩

/-- Whether an operation is a network fetch. -/
def Effect.isFetch : Effect → Bool
  | Effect.fetch _ => true
  | _ => false

/-- Whether an operation is a cache write. -/
def Effect.isPut : Effect → Bool
  | Effect.cachePut _ _ _ => true
  | _ => false

/-- How a promise settles, given whether the operation behind it fails. -/
def settle (fails : Bool) : Settled Unit :=
  if fails then Settled.rejected else Settled.resolved ()

/-- The routine `doBackgroundSync`: the operations it issues (a timer of 2000 ms) and how
the promise it returns settles (the timer resolves it; nothing rejects it). -/
def doBackgroundSync : List Effect × Settled Unit :=
  ([Effect.setTimeout 2000], Settled.resolved ())

/-- The sync handler:
`if (event.tag === 'pending-data-sync') { event.waitUntil(doBackgroundSync()); }`. -/
def syncHandler (s : CacheStorage) (tag : String) : Run Ending :=
  if tag = "pending-data-sync" then
    ⟨s, doBackgroundSync.1, Ending.awaited doBackgroundSync.2⟩
  else
    ⟨s, [], Ending.returned⟩

/-- JavaScript `v || d` on an optional string: `d` when `v` is absent (undefined, null) or
the empty string, `v` otherwise. -/
def orElse (v : Option String) (d : String) : String :=
  match v with
  | none => d
  | some u => if u = "" then d else u

/-- The push handler. `data` is `none` when `event.data` is absent, `some none` when
`event.data.json()` throws, and `some (some payload)` when it parses. -/
def pushHandler (ui : UiEnv) (s : CacheStorage) (data : Option (Option PushPayload)) :
    Run Ending :=
  match data with
  | none => ⟨s, [], Ending.returned⟩
  | some none => ⟨s, [], Ending.threw⟩
  | some (some payload) =>
      ⟨s,
        [Effect.showNotification
          { title := payload.title
            body := payload.body
            icon := "/icons/icon-192x192.png"
            badge := "/icons/icon-72x72.png"
            vibrate := [200, 100, 200]
            data := { url := orElse payload.url "/" } }],
        Ending.awaited (settle ui.showNotificationFails)⟩

/-- The notificationclick handler, for the notification of the event and the window
clients `clients.matchAll({ type: 'window' })` resolves with. -/
def notificationclick (ui : UiEnv) (s : CacheStorage) (notification : Notification)
    (clientList : List WindowClient) : Run Ending :=
  match clientList.find? (fun client => client.url = notification.data.url && client.canFocus)
    with
  | some client =>
      ⟨s, [Effect.notificationClose, Effect.clientsMatchAll, Effect.clientFocus client],
        Ending.awaited (settle ui.focusFails)⟩
  | none =>
      if ui.openWindowAvailable then
        ⟨s, [Effect.notificationClose, Effect.clientsMatchAll,
              Effect.openWindow notification.data.url],
          Ending.awaited (settle ui.openWindowFails)⟩
      else
        ⟨s, [Effect.notificationClose, Effect.clientsMatchAll],
          Ending.awaited (Settled.resolved ())⟩

/-! Sample environments -/

/-- An origin used in the examples. -/
def farmOrigin : String := "https://farm.example"

/-- Every fetch resolves with a status-200 basic response whose body is the URL; no storage
operation fails. -/
def onlineEnv : Env :=
  { origin := farmOrigin
    net := fun u => Settled.resolved (some ⟨200, "basic", u⟩)
    openFails := fun _ => false
    putFails := fun _ _ => false
    keysFails := false
    deleteFails := fun _ => false }

/-- Every fetch rejects (the device is offline); no storage operation fails. -/
def offlineEnv : Env :=
  { onlineEnv with net := fun _ => Settled.rejected }

/-- A response stored for the examples. -/
def sampleResponse : Response := ⟨200, "basic", "hello"⟩

/-- Every fetch resolves with an opaque response (status 0), as for a no-cors request to
another origin. -/
def opaqueEnv : Env :=
  { onlineEnv with net := fun _ => Settled.resolved (some ⟨0, "opaque", ""⟩) }

/-- Every fetch resolves with an opaque response of status 200. -/
def opaqueOkEnv : Env :=
  { onlineEnv with net := fun _ => Settled.resolved (some ⟨200, "opaque", ""⟩) }

/-- Every fetch resolves with a 404 response. -/
def notFoundEnv : Env :=
  { onlineEnv with net := fun _ => Settled.resolved (some ⟨404, "basic", "not found"⟩) }

/-- The deletion of the generation 'poultry-farm-v1' rejects; everything else succeeds. -/
def deleteFailsEnv : Env :=
  { onlineEnv with deleteFails := fun n => n = "poultry-farm-v1" }

/-- The fetch of '/b.css' rejects; every other fetch succeeds. -/
def cssFailsEnv : Env :=
  { onlineEnv with
    net := fun u =>
      if u = "https://farm.example/b.css" then Settled.rejected
      else Settled.resolved (some ⟨200, "basic", u⟩) }

/-- A storage whose current generation holds the index page. -/
def indexStorage : CacheStorage :=
  [("poultry-farm-v3", [("https://farm.example/index.html", sampleResponse)])]

/-- A storage where a page is stored in the stale generation v2 only. -/
def staleStorage : CacheStorage :=
  [("poultry-farm-v2", [("https://farm.example/old.html", sampleResponse)]),
   ("poultry-farm-v3", [])]

/-- A storage with the generations v2 and v3. -/
def twoGenerations : CacheStorage :=
  [("poultry-farm-v2", []), ("poultry-farm-v3", [])]

/-- Opening a cache rejects; everything else succeeds. -/
def openFailsEnv : Env :=
  { onlineEnv with openFails := fun _ => true }

/-- Every put rejects; everything else succeeds. -/
def putFailsEnv : Env :=
  { onlineEnv with putFails := fun _ _ => true }

/-- The call `caches.keys()` rejects; everything else succeeds. -/
def keysFailsEnv : Env :=
  { onlineEnv with keysFails := true }

/-- No notification call rejects and `clients.openWindow` exists. -/
def quietUi : UiEnv :=
  { showNotificationFails := false
    focusFails := false
    openWindowAvailable := true
    openWindowFails := false }

/-- The push payload of the specification's scenario. -/
def alertPayload : PushPayload :=
  { title := "Alert", body := "High temp", url := some "/dashboard.html" }

/-- A push payload whose `url` field is present and empty. -/
def emptyUrlPayload : PushPayload :=
  { title := "Alert", body := "High temp", url := some "" }

/-- The notification the push handler shows for `alertPayload`. -/
def alertNotification : Notification :=
  { title := "Alert"
    body := "High temp"
    icon := "/icons/icon-192x192.png"
    badge := "/icons/icon-72x72.png"
    vibrate := [200, 100, 200]
    data := { url := "/dashboard.html" } }

/-- An open window showing the dashboard page of the worker's origin. -/
def dashboardWindow : WindowClient :=
  { id := "w1", url := "https://farm.example/dashboard.html", canFocus := true }

/-- The icon entry of the manifest for a pixel size. -/
def iconPath (n : Nat) : String :=
  "/icons/icon-" ++ toString n ++ "x" ++ toString n ++ ".png"

/-- The pixel sizes of the icons. -/
def iconSizes : List Nat := [72, 96, 128, 144, 152, 192, 384, 512]

/-- A storage with the generations v1, v2 and v3. -/
def threeGenerations : CacheStorage :=
  [("poultry-farm-v1", []), ("poultry-farm-v2", []), ("poultry-farm-v3", [])]

end SW

/-! The page script `app.js` -/

namespace App

/-- JavaScript `s.length`: the number of UTF-16 code units of the string. -/
def jsLength (s : String) : Nat :=
  (s.data.map (fun c => if c.toNat < 65536 then 1 else 2)).sum

/-! Reconnection of the WebSocket -/

def MAX_RECONNECT_ATTEMPTS : Nat := 5

/-- The state of the reconnection: the counter `reconnectAttempts` and the delays, in ms, of
the reconnect timers scheduled so far, oldest first. -/
structure Reconnect where
  reconnectAttempts : Nat
  scheduled : List Nat
deriving DecidableEq, Repr

/-- The function `attemptReconnect`, called when the socket closes. -/
def attemptReconnect (st : Reconnect) : Reconnect :=
  if st.reconnectAttempts ≥ MAX_RECONNECT_ATTEMPTS then st
  else
    { reconnectAttempts := st.reconnectAttempts + 1
      scheduled := st.scheduled ++ [min (1000 * 2 ^ st.reconnectAttempts) 30000] }

/-- The handler `socket.onopen`: the counter is reset. -/
def onopen (st : Reconnect) : Reconnect :=
  { st with reconnectAttempts := 0 }

/-- The events of the socket that touch the counter. -/
inductive SocketEvent where
  | opened
  | closed
deriving DecidableEq, Repr

/-- The state after a sequence of socket events. -/
def runSocket (st : Reconnect) (events : List SocketEvent) : Reconnect :=
  events.foldl (fun acc e =>
    match e with
    | SocketEvent.opened => onopen acc
    | SocketEvent.closed => attemptReconnect acc) st

/-! Charts -/

/-- The data of a chart: the labels and, for each dataset, its values; a value is `none`
when `undefined` was pushed. -/
structure Chart (α : Type) where
  labels : List String
  datasets : List (List (Option α))

/-- The function `addDataToChart`; `toLocaleTimeString` is the formatting of the timestamp
by the platform. -/
def addDataToChart {α : Type} (toLocaleTimeString : Int → String) (chart : Chart α)
    (timestamp : Int) (values : List α) : Chart α :=
  let maxDataPoints := 20
  let time := toLocaleTimeString timestamp
  let labels := chart.labels ++ [time]
  let datasets := chart.datasets.enum.map (fun d => d.2 ++ [values[d.1]?])
  if labels.length > maxDataPoints then
    { labels := labels.tail, datasets := datasets.map List.tail }
  else
    { labels := labels, datasets := datasets }

/-! Pending data -/

/-- An element of the pending data as `JSON.parse` returns it: a primitive (string, number,
boolean, null), given by its JSON text, or an object or array. -/
inductive Item where
  | primitive (json : String)
  | reference (json : String)
deriving DecidableEq, Repr

/-- JavaScript `item !== data` for two elements of one parsed array, each given with its
position: two primitives differ when their values differ, two objects or arrays when they
are not the same element. -/
def strictNotEqual (item data : Nat × Item) : Bool :=
  match item.2, data.2 with
  | Item.primitive a, Item.primitive b => a ≠ b
  | Item.reference _, Item.reference _ => item.1 ≠ data.1
  | _, _ => true

/-- The state `syncPendingData` works on: the list stored under 'pendingData' in
localStorage (`none` when nothing is stored) and the messages shown. -/
structure SyncState where
  pendingData : Option (List Item)
  shown : List String
deriving DecidableEq, Repr

/-- The timer callback that `syncPendingData` schedules for the element `data` (with its
index): it stores `pendingData.filter(item => item !== data)`, where `pendingData` is the
list parsed when `syncPendingData` was called. -/
def syncStep (pendingData : List Item) (data : Nat × Item) (st : SyncState) : SyncState :=
  { pendingData :=
      some ((pendingData.enum.filter (fun item => strictNotEqual item data)).map (fun p => p.2))
    shown :=
      if data.1 = pendingData.length - 1 then st.shown ++ ["Data sync completed"]
      else st.shown }

/-- The function `syncPendingData` followed by all the timers it schedules, in the order
they fire (the delay of the element at `index` is `index * 1000` ms). -/
def syncPendingData (st : SyncState) : SyncState :=
  let pendingData := st.pendingData.getD []
  if pendingData.length > 0 then
    pendingData.enum.foldl (fun acc data => syncStep pendingData data acc)
      { st with shown := st.shown ++ ["Syncing pending data..."] }
  else st

/-! Login -/

/-- The classes of characters the pattern of `validateEmail` tells apart. -/
inductive CharClass where
  | whitespace
  | atSign
  | dot
  | other
deriving DecidableEq, Repr

/-- The characters matched by `\s` in a JavaScript pattern, by code point. -/
def isWhitespace (c : Char) : Bool :=
  c.toNat ∈ [9, 10, 11, 12, 13, 32, 160, 5760, 8192, 8193, 8194, 8195, 8196, 8197, 8198,
    8199, 8200, 8201, 8202, 8232, 8233, 8239, 8287, 12288, 65279]

/-- The class of a character. -/
def classify (c : Char) : CharClass :=
  if c = '@' then CharClass.atSign
  else if c = '.' then CharClass.dot
  else if isWhitespace c then CharClass.whitespace
  else CharClass.other

/-- The class `[^\s@]` of the pattern. -/
def notSpaceAt : RegularExpression CharClass :=
  RegularExpression.char CharClass.dot + RegularExpression.char CharClass.other

/-- The repetition `P+` of a pattern. -/
def oneOrMore (P : RegularExpression CharClass) : RegularExpression CharClass :=
  P * RegularExpression.star P

/-- The pattern `/^[^\s@]+@[^\s@]+\.[^\s@]+$/` of `validateEmail`. -/
def re : RegularExpression CharClass :=
  oneOrMore notSpaceAt * RegularExpression.char CharClass.atSign * oneOrMore notSpaceAt *
    RegularExpression.char CharClass.dot * oneOrMore notSpaceAt

/-- The function `validateEmail`: `re.test(email)`. -/
def validateEmail (email : String) : Bool :=
  re.rmatch (email.data.map classify)

/-- What the specification says of an accepted address: no whitespace, exactly one '@'
with at least one character before it, and after the '@' a '.' with at least one character
before it and at least one after it. -/
def emailShape (email : String) : Prop :=
  (∀ c ∈ email.data, isWhitespace c = false) ∧
  email.data.count '@' = 1 ∧
  ∃ before after, email.data = before ++ '@' :: after ∧ before ≠ [] ∧
    ∃ x y, after = x ++ '.' :: y ∧ x ≠ [] ∧ y ≠ []

/-- The value the promise of `simulateLogin` resolves with (after a timer of 1500 ms). -/
def simulateLogin (email password : String) : Bool :=
  email = "demo@poultryfarm.com" && password = "demo123"

/-- The validation of the login form before `simulateLogin` is called: the error shown,
or `none` when the form passes. -/
def loginFormError (email password : String) : Option String :=
  if !validateEmail email then some "Please enter a valid email address"
  else if jsLength password < 6 then some "Password must be at least 6 characters"
  else none

/-! Notifications -/

/-- A notification of the panel. -/
structure Notification where
  id : Nat
  title : String
  message : String
  type : String
  timestamp : Int
  unread : Bool
deriving DecidableEq, Repr

/-- The function `getDemoNotifications`, for the value `now` of `Date.now()`. -/
def getDemoNotifications (now : Int) : List Notification :=
  [ { id := 1
      title := "High Temperature Alert"
      message := "Temperature exceeded 30°C in Broiler House 2. Please check ventilation system."
      type := "alert"
      timestamp := now - 600000
      unread := true },
    { id := 2
      title := "Ammonia Level Rising"
      message := "Ammonia levels approaching threshold in Layer House 1. Consider increasing ventilation."
      type := "warning"
      timestamp := now - 1800000
      unread := true },
    { id := 3
      title := "Humidity Fluctuation"
      message := "Humidity dropped below optimal range in Breeder House. Check humidifier settings."
      type := "info"
      timestamp := now - 7200000
      unread := true },
    { id := 4
      title := "System Update"
      message := "New dashboard features available. Check the settings page for details."
      type := "info"
      timestamp := now - 86400000
      unread := false } ]

/-- Whether an integer is one on which the arithmetic of JavaScript numbers (doubles) is
exact integer arithmetic: its absolute value is at most 2^53. -/
def isExact (x : Int) : Bool :=
  -9007199254740992 ≤ x && x ≤ 9007199254740992

/-- The function `formatTime`, for the value `now` of `Date.now()`, on the arguments where
the arithmetic of the source is exact: `now`, `timestamp` and their difference are integers
of absolute value at most 2^53. There the subtraction is the integer subtraction and
`Math.floor` of each quotient is the integer quotient. The result is `none` outside this
range, where the embedding does not describe the function. -/
def formatTime (now timestamp : Int) : Option String :=
  if isExact now && isExact timestamp && isExact (now - timestamp) then
    let diff := now - timestamp
    if diff < 60000 then some "Just now"
    else if diff < 3600000 then some (toString (diff / 60000) ++ "m ago")
    else if diff < 86400000 then some (toString (diff / 3600000) ++ "h ago")
    else some (toString (diff / 86400000) ++ "d ago")
  else none

/-- The list the notification functions work on:
`JSON.parse(localStorage.getItem('notifications')) || getDemoNotifications()`; `stored` is
`none` when nothing is stored. -/
def loadStored (now : Int) (stored : Option (List Notification)) : List Notification :=
  match stored with
  | some notifications => notifications
  | none => getDemoNotifications now

/-- The list `markNotificationsAsRead` stores. -/
def markNotificationsAsRead (now : Int) (stored : Option (List Notification)) :
    List Notification :=
  (loadStored now stored).map (fun notification => { notification with unread := false })

/-- The list `dismissNotification` stores; `notificationId` is the number the `data-id`
attribute of the button denotes, and `!=` compares it with the numeric `id`. -/
def dismissNotification (now : Int) (stored : Option (List Notification))
    (notificationId : Nat) : List Notification :=
  (loadStored now stored).filter (fun notification => notification.id ≠ notificationId)

/-- The list `addNotification` stores. -/
def addNotification (now : Int) (stored : Option (List Notification))
    (notification : Notification) : List Notification :=
  notification :: loadStored now stored

/-- The count `updateNotificationBadge` displays: `notifications.filter(n => n.unread).length`. -/
def unreadCount (notifications : List Notification) : Nat :=
  (notifications.filter (fun n => n.unread)).length

/-! The install prompt of `app.js` -/

/-- The state of `initPWAInstall`: the saved event (by its id), the display of the install
button, the events whose `prompt()` was called, and what was tracked. -/
structure InstallState where
  deferredPrompt : Option Nat
  display : String
  prompted : List Nat
  tracked : List String
deriving DecidableEq, Repr

/-- The listener of `beforeinstallprompt`. -/
def onBeforeInstallPrompt (e : Nat) (st : InstallState) : InstallState :=
  { st with deferredPrompt := some e, display := "flex" }

/-- The function `installApp`, up to the call of `prompt()`. -/
def installApp (st : InstallState) : InstallState :=
  match st.deferredPrompt with
  | none => st
  | some e => { st with prompted := st.prompted ++ [e] }

/-- The callback of `deferredPrompt.userChoice`, run when the choice of the user resolves. -/
def installAppChoice (outcome : String) (st : InstallState) : InstallState :=
  { st with
    tracked := st.tracked ++ [if outcome = "accepted" then "accepted" else "dismissed"]
    deferredPrompt := none
    display := "none" }

/-- The listener of `appinstalled`. -/
def onAppInstalled (st : InstallState) : InstallState :=
  { st with display := "none", deferredPrompt := none }

end App

/-! The login page script `script.js` -/

namespace Script

/-- The value the promise of `simulateLoginAPI` resolves with (after a timer of 1000 ms). -/
structure LoginResponse where
  success : Bool
  user : Option (String × String)
  error : Option String
deriving DecidableEq, Repr

/-- The function `simulateLoginAPI`. -/
def simulateLoginAPI (email password : String) (_rememberMe : Bool) : LoginResponse :=
  if email = "demo@poultryfarm.com" ∧ password = "demo123" then
    { success := true, user := some ("Admin User", email), error := none }
  else
    { success := false, user := none, error := some "Invalid credentials" }

/-- The test of the form before `simulateLoginAPI` is called:
`email && password.length >= 6`. -/
def formPasses (email password : String) : Bool :=
  email ≠ "" && App.jsLength password ≥ 6

end Script

/-! The install prompt script `pwa-install.js` -/

namespace PWAInstall

/-- The state of the script: the global `deferredPrompt` (the saved event, by its id), the
display of the install button, the events whose `prompt()` was called, and the analytics
events logged. -/
structure State where
  deferredPrompt : Option Nat
  display : String
  prompted : List Nat
  analytics : List String
deriving DecidableEq, Repr

/-- The function `handleBeforeInstallPrompt`. -/
def handleBeforeInstallPrompt (event : Nat) (st : State) : State :=
  { st with
    deferredPrompt := some event
    display := "flex"
    analytics := st.analytics ++ ["pwa_install_available"] }

/-- The function `handleAppInstalled`. -/
def handleAppInstalled (st : State) : State :=
  { st with
    display := "none"
    deferredPrompt := none
    analytics := st.analytics ++ ["pwa_installed"] }

/-- The function `installPWA`, up to the call of `prompt()`. -/
def installPWA (st : State) : State :=
  match st.deferredPrompt with
  | none => st
  | some event => { st with prompted := st.prompted ++ [event] }

/-- The callback of `deferredPrompt.userChoice`, run when the choice of the user resolves. -/
def userChoice (outcome : String) (st : State) : State :=
  { st with
    analytics := st.analytics ++
      [if outcome = "accepted" then "pwa_install_accepted" else "pwa_install_dismissed"]
    deferredPrompt := none
    display := "none" }

end PWAInstall

namespace SW

/-! Lemmas on the platform model -/

theorem startsWith_iff (s p : String) : startsWith s p = true ↔ p.data <+: s.data := by
  unfold startsWith
  exact List.isPrefixOf_iff_prefix

/-- The origin of a URL is a prefix of the URL: a same-origin request passes the origin test
of the fetch handler. -/
theorem startsWith_urlOrigin (url origin : String) (h : urlOrigin url = some origin) :
    startsWith url origin = true := by
  rw [startsWith_iff]
  unfold urlOrigin at h
  split at h
  · rename_i rest hrest
    have hsplit := List.takeWhile_append_dropWhile (fun c => decide (c ≠ ':')) url.data
    have hrest2 := List.takeWhile_append_dropWhile (fun c => !endsAuthority c) rest
    simp only [Option.some.injEq] at h
    subst h
    rw [hrest] at hsplit
    refine ⟨rest.dropWhile (fun c => !endsAuthority c), ?_⟩
    simp only
    conv_rhs => rw [← hsplit, ← hrest2]
    simp [List.append_assoc]
  · exact absurd h (by simp)

theorem startsWith_resolveUrl (env : Env) (path : String) :
    startsWith (resolveUrl env path) env.origin = true := by
  rw [startsWith_iff]
  exact ⟨path.data, by simp [resolveUrl]⟩

/-! The branches of the fetch handler -/

theorem fetchHandler_skip (env : Env) (s : CacheStorage) (request : Request)
    (h : startsWith request.url env.origin = false) :
    fetchHandler env s request = ⟨s, [], none⟩ := by
  simp [fetchHandler, h]

theorem fetchHandler_hit (env : Env) (s : CacheStorage) (request : Request) (r : Response)
    (h : startsWith request.url env.origin = true) (hhit : caches_match s request.url = some r) :
    fetchHandler env s request =
      ⟨s, [Effect.cachesMatch request.url], some (Settled.resolved (some r))⟩ := by
  simp [fetchHandler, h, hhit]

theorem fetchHandler_offline (env : Env) (s : CacheStorage) (request : Request)
    (h : startsWith request.url env.origin = true) (hmiss : caches_match s request.url = none)
    (hnet : env.net request.url = Settled.rejected) :
    fetchHandler env s request =
      ⟨s, [Effect.cachesMatch request.url, Effect.fetch request.url,
            Effect.cachesMatch (resolveUrl env "/offline.html")],
        some (Settled.resolved (caches_match s (resolveUrl env "/offline.html")))⟩ := by
  simp [fetchHandler, h, hmiss, hnet]

theorem fetchHandler_passthrough (env : Env) (s : CacheStorage) (request : Request)
    (response : Option Response)
    (h : startsWith request.url env.origin = true) (hmiss : caches_match s request.url = none)
    (hnet : env.net request.url = Settled.resolved response)
    (hnc : notCacheable response = true) :
    fetchHandler env s request =
      ⟨s, [Effect.cachesMatch request.url, Effect.fetch request.url],
        some (Settled.resolved response)⟩ := by
  simp [fetchHandler, h, hmiss, hnet, hnc]

theorem fetchHandler_store (env : Env) (s : CacheStorage) (request : Request) (r : Response)
    (h : startsWith request.url env.origin = true) (hmiss : caches_match s request.url = none)
    (hnet : env.net request.url = Settled.resolved (some r))
    (hc : notCacheable (some r) = false) :
    fetchHandler env s request =
      ⟨storeCopy env s request.url r,
        [Effect.cachesMatch request.url, Effect.fetch request.url] ++
          storeTrace env request.url r,
        some (Settled.resolved (some r))⟩ := by
  simp [fetchHandler, h, hmiss, hnet, hc]

theorem notCacheable_some (r : Response) :
    notCacheable (some r) = false ↔ r.status = 200 ∧ r.type = "basic" := by
  simp [notCacheable]

/-! Lemmas on the cache storage -/

theorem caches_keys_cache_put (s : CacheStorage) (name key : String) (r : Response) :
    caches_keys (cache_put s name key r) = caches_keys s := by
  unfold caches_keys cache_put
  rw [List.map_map]
  apply List.map_congr_left
  intro g _
  by_cases hg : g.1 = name <;> simp [hg]

theorem mem_caches_keys_open (s : CacheStorage) (name : String) :
    name ∈ caches_keys (caches_open s name) := by
  unfold caches_open
  by_cases h : name ∈ caches_keys s
  · simp [h]
  · rw [if_neg h]
    simp [caches_keys]

/-- The generation found under `name` after a put into `name`. -/
theorem caches_get_cache_put (s : CacheStorage) (name key : String) (r : Response) :
    caches_get (cache_put s name key r) name =
      (caches_get s name).map (fun c => Cache.put c key r) := by
  unfold caches_get cache_put
  induction s with
  | nil => rfl
  | cons g rest ih =>
    by_cases hg : g.1 = name
    · simp [List.find?, hg]
    · simpa [List.find?, hg] using ih

theorem caches_get_isSome (s : CacheStorage) (name : String) (h : name ∈ caches_keys s) :
    ∃ c, caches_get s name = some c := by
  unfold caches_get
  induction s with
  | nil => simp [caches_keys] at h
  | cons g rest ih =>
    by_cases hg : g.1 = name
    · exact ⟨g.2, by simp [List.find?, hg]⟩
    · have hrest : name ∈ caches_keys rest := by
        simp only [caches_keys, List.map_cons, List.mem_cons] at h
        rcases h with h | h
        · exact absurd h.symm hg
        · exact h
      obtain ⟨c, hc⟩ := ih hrest
      exact ⟨c, by simpa [List.find?, hg] using hc⟩

theorem find?_filter_ne (c : Cache) (key k : String) (hk : ¬ k = key) :
    List.find? (fun e => decide (e.1 = k)) (List.filter (fun e => decide (e.1 ≠ key)) c) =
      List.find? (fun e => decide (e.1 = k)) c := by
  rw [List.find?_filter]
  congr 1
  funext a
  by_cases ha : a.1 = k
  · simp [ha, hk]
  · simp [ha]

theorem cache_match_put (c : Cache) (key k : String) (r : Response) :
    cache_match (Cache.put c key r) k =
      if k = key then some r else cache_match c k := by
  unfold cache_match Cache.put
  by_cases hk : k = key
  · subst hk
    rw [List.find?_append]
    have : List.find? (fun e => decide (e.1 = k)) (List.filter (fun e => decide (e.1 ≠ k)) c)
        = none := by
      rw [List.find?_eq_none]
      intro e he
      have := (List.mem_filter.mp he).2
      simpa using this
    simp [this]
  · rw [List.find?_append, find?_filter_ne c key k hk]
    have hk2 : ¬ key = k := fun h => hk h.symm
    simp [List.find?, hk2, hk]

theorem caches_match_of_all (s : CacheStorage) (key : String) (r : Response)
    (hne : s ≠ []) (hall : ∀ g ∈ s, cache_match g.2 key = some r) :
    caches_match s key = some r := by
  cases s with
  | nil => exact absurd rfl hne
  | cons g rest =>
    unfold caches_match
    simp [List.findSome?, hall g (List.mem_cons_self g rest)]

/-! Lemmas on the activate handler -/

/-- What the deletions of activate leave: a generation stays when it was not asked to be
deleted or when its deletion rejected. -/
theorem deleteAll_eq (env : Env) (names : List String) (s : CacheStorage) :
    deleteAll env s names =
      s.filter (fun g => decide (g.1 ∉ names) || env.deleteFails g.1) := by
  unfold deleteAll
  induction names generalizing s with
  | nil => simp
  | cons n ns ih =>
    rw [List.foldl_cons, ih]
    by_cases hn : env.deleteFails n = true
    · rw [if_pos hn]
      apply List.filter_congr
      intro g _
      by_cases hg : g.1 = n
      · simp [hg, hn]
      · simp [hg]
    · rw [if_neg hn]
      unfold caches_delete
      rw [List.filter_filter]
      apply List.filter_congr
      intro g _
      by_cases hg : g.1 = n
      · simp [hg, hn]
      · simp [hg]

theorem mem_staleNames (s : CacheStorage) (n : String) :
    n ∈ staleNames s ↔ n ∈ caches_keys s ∧ n ≠ CACHE_NAME := by
  simp [staleNames, List.mem_filter]

/-- When no deletion rejects, activate leaves exactly the generations named `CACHE_NAME`. -/
theorem deleteAll_stale_ok (env : Env) (s : CacheStorage)
    (hok : ∀ n ∈ staleNames s, env.deleteFails n = false) :
    deleteAll env s (staleNames s) = s.filter (fun g => g.1 = CACHE_NAME) := by
  rw [deleteAll_eq]
  apply List.filter_congr
  intro g hg
  have hkey : g.1 ∈ caches_keys s := List.mem_map_of_mem (fun g => g.1) hg
  by_cases hc : g.1 = CACHE_NAME
  · have : g.1 ∉ staleNames s := fun h => ((mem_staleNames s g.1).mp h).2 hc
    simp [hc, this]
    rw [← hc]
    simp [this]
  · have hst : g.1 ∈ staleNames s := (mem_staleNames s g.1).mpr ⟨hkey, hc⟩
    simp [hc, hst, hok g.1 hst]

theorem activate_resolved_iff (env : Env) (s : CacheStorage) :
    (activate env s).outcome = Settled.resolved () ↔
      env.keysFails = false ∧ ∀ n ∈ staleNames s, env.deleteFails n = false := by
  unfold activate
  by_cases hk : env.keysFails = true
  · simp [hk]
  · by_cases hd : (staleNames s).any env.deleteFails = true
    · simp only [hk, hd, if_true, if_false]
      constructor
      · intro h; cases h
      · rintro ⟨-, h⟩
        rw [List.any_eq_true] at hd
        obtain ⟨n, hn, hf⟩ := hd
        rw [h n hn] at hf
        cases hf
    · simp only [hk, hd, if_false]
      constructor
      · intro _
        refine ⟨trivial, ?_⟩
        intro n hn
        by_contra hf
        exact hd (List.any_eq_true.mpr ⟨n, hn, by simpa using hf⟩)
      · intro _; trivial

theorem activate_storage (env : Env) (s : CacheStorage) (hk : env.keysFails = false) :
    (activate env s).storage = deleteAll env s (staleNames s) := by
  unfold activate
  by_cases hd : (staleNames s).any env.deleteFails = true <;> simp [hk, hd]

/-! Lemmas on the install handler -/

theorem resolveUrl_injective (env : Env) : Function.Injective (resolveUrl env) := by
  intro a b h
  unfold resolveUrl at h
  have hd := congrArg String.data h
  simp only [String.data_append, List.append_cancel_left_eq] at hd
  exact String.ext hd

theorem urlsToCache_nodup : urlsToCache.Nodup := by
  decide

theorem urlsToCache_keys_nodup (env : Env) : (urlsToCache.map (resolveUrl env)).Nodup :=
  List.Nodup.map (resolveUrl_injective env) urlsToCache_nodup

theorem precacheOk_iff (env : Env) (urls : List String) :
    precacheOk env urls = true ↔
      ∀ u ∈ urls, (precacheResponse env (resolveUrl env u)).isSome = true := by
  simp [precacheOk, List.all_eq_true]

/-- When every precache fetch succeeds, the batch has one entry per URL, in order. -/
theorem precacheEntries_keys (env : Env) (urls : List String)
    (hok : precacheOk env urls = true) :
    (precacheEntries env urls).map (fun e => e.1) = urls.map (resolveUrl env) := by
  induction urls with
  | nil => rfl
  | cons u rest ih =>
    rw [precacheOk_iff] at hok
    have hu := hok u (List.mem_cons_self u rest)
    have hrest : precacheOk env rest = true :=
      (precacheOk_iff env rest).mpr (fun v hv => hok v (List.mem_cons_of_mem u hv))
    obtain ⟨r, hr⟩ := Option.isSome_iff_exists.mp hu
    have ih2 := ih hrest
    unfold precacheEntries at ih2 ⊢
    simp [List.filterMap_cons, hr, ih2]

theorem mem_precacheEntries (env : Env) (urls : List String) (u : String) (r : Response)
    (hu : u ∈ urls) (hr : precacheResponse env (resolveUrl env u) = some r) :
    (resolveUrl env u, r) ∈ precacheEntries env urls := by
  unfold precacheEntries
  rw [List.mem_filterMap]
  exact ⟨u, hu, by simp [hr]⟩

theorem Cache.putAll_append (c : Cache) (init : List (String × Response))
    (e : String × Response) :
    Cache.putAll c (init ++ [e]) = Cache.put (Cache.putAll c init) e.1 e.2 := by
  simp [Cache.putAll, List.foldl_append]

/-- After a batch of puts with distinct keys, every entry of the batch is found. -/
theorem cache_match_putAll (c : Cache) (entries : List (String × Response))
    (k : String) (r : Response)
    (hnd : (entries.map (fun e => e.1)).Nodup) (hmem : (k, r) ∈ entries) :
    cache_match (Cache.putAll c entries) k = some r := by
  induction entries using List.reverseRecOn with
  | nil => simp at hmem
  | append_singleton init e ih =>
    rw [Cache.putAll_append, cache_match_put]
    rw [List.map_append, List.nodup_append] at hnd
    obtain ⟨hinit, -, hdisj⟩ := hnd
    rcases List.mem_append.mp hmem with h | h
    · have hne : ¬ k = e.1 := by
        intro hk
        have h1 : k ∈ init.map (fun e => e.1) := List.mem_map_of_mem (fun e => e.1) h
        exact hdisj h1 (by simp [hk])
      rw [if_neg hne]
      exact ih hinit h
    · have he : e = (k, r) := (List.mem_singleton.mp h).symm
      subst he
      simp

/-- The keys of a generation after a batch of puts with distinct keys: the keys that are not
of the batch, then the keys of the batch in order. -/
theorem keys_putAll (c : Cache) (entries : List (String × Response))
    (hnd : (entries.map (fun e => e.1)).Nodup) :
    (Cache.putAll c entries).keys =
      c.keys.filter (fun k => decide (k ∉ entries.map (fun e => e.1))) ++
        entries.map (fun e => e.1) := by
  induction entries using List.reverseRecOn with
  | nil => simp [Cache.putAll, Cache.keys]
  | append_singleton init e ih =>
    rw [List.map_append, List.nodup_append] at hnd
    obtain ⟨hinit, -, hdisj⟩ := hnd
    have hnot : e.1 ∉ init.map (fun e => e.1) := fun h => hdisj h (by simp)
    have ih2 := ih hinit
    rw [Cache.putAll_append]
    unfold Cache.keys at ih2 ⊢
    unfold Cache.put
    rw [List.map_append, List.map_append]
    have hfm : List.map (fun e => e.1)
        (List.filter (fun x => decide (x.1 ≠ e.1)) (Cache.putAll c init)) =
        List.filter (fun k => decide (k ≠ e.1))
          (List.map (fun e => e.1) (Cache.putAll c init)) := by
      rw [List.filter_map]
      rfl
    rw [hfm, ih2, List.filter_append, List.filter_filter]
    have hkeep : List.filter (fun k => decide (k ≠ e.1)) (List.map (fun e => e.1) init) =
        List.map (fun e => e.1) init := by
      rw [List.filter_eq_self]
      intro a ha
      have : a ≠ e.1 := fun h => hnot (h ▸ ha)
      simpa using this
    rw [hkeep, List.append_assoc]
    congr 1
    apply List.filter_congr
    intro k _
    simp only [List.map_cons, List.map_nil, List.mem_append, List.mem_singleton, not_or,
      Bool.decide_and, ne_eq]
    rw [Bool.and_comm]

/-- A batch of puts on the storage is the batch of puts on every generation of that name. -/
theorem cache_putAll_eq_map (name : String) (entries : List (String × Response))
    (s : CacheStorage) :
    cache_putAll s name entries =
      s.map (fun g => if g.1 = name then (g.1, Cache.putAll g.2 entries) else g) := by
  unfold cache_putAll
  induction entries generalizing s with
  | nil =>
    simp only [List.foldl_nil, Cache.putAll]
    symm
    conv_rhs => rw [← List.map_id s]
    apply List.map_congr_left
    intro g _
    rcases g with ⟨n, c⟩
    by_cases hg : n = name <;> simp [hg]
  | cons e rest ih =>
    rw [List.foldl_cons, ih]
    unfold cache_put
    rw [List.map_map]
    apply List.map_congr_left
    intro g _
    by_cases hg : g.1 = name
    · simp [hg, Cache.putAll]
    · simp [hg]

theorem caches_get_putAll (s : CacheStorage) (name : String)
    (entries : List (String × Response)) :
    caches_get (cache_putAll s name entries) name =
      (caches_get s name).map (fun c => Cache.putAll c entries) := by
  rw [cache_putAll_eq_map]
  unfold caches_get
  induction s with
  | nil => rfl
  | cons g rest ih =>
    by_cases hg : g.1 = name
    · simp [List.find?, hg]
    · simpa [List.find?, hg] using ih

theorem caches_get_open_fresh (s : CacheStorage) (name : String)
    (h : name ∉ caches_keys s) : caches_get (caches_open s name) name = some [] := by
  unfold caches_open
  rw [if_neg h]
  unfold caches_get
  rw [List.find?_append]
  have hnone : List.find? (fun g => decide (g.1 = name)) s = none := by
    rw [List.find?_eq_none]
    intro g hg hgn
    exact h (by
      have : g.1 = name := by simpa using hgn
      rw [← this]
      exact List.mem_map_of_mem (fun g => g.1) hg)
  simp [hnone]

theorem caches_open_of_mem (s : CacheStorage) (name : String) (h : name ∈ caches_keys s) :
    caches_open s name = s := by
  unfold caches_open
  rw [if_pos h]

theorem caches_keys_putAll (s : CacheStorage) (name : String)
    (entries : List (String × Response)) :
    caches_keys (cache_putAll s name entries) = caches_keys s := by
  rw [cache_putAll_eq_map]
  unfold caches_keys
  rw [List.map_map]
  apply List.map_congr_left
  intro g _
  by_cases hg : g.1 = name <;> simp [hg]

theorem not_skipWaiting_mem_addAllTrace (env : Env) (name : String) (urls : List String) :
    Effect.skipWaiting ∉ addAllTrace env name urls := by
  unfold addAllTrace
  intro h
  rcases List.mem_append.mp h with h | h
  · simp at h
  · split at h
    · simp at h
    · simp at h

/-- The install operation resolves exactly when the cache opens, every precache fetch
succeeds and the manifest has no URL twice. -/
theorem installWith_resolved_iff (name : String) (urls : List String) (env : Env)
    (s : CacheStorage) :
    (installWith name urls env s).outcome = Settled.resolved () ↔
      env.openFails name = false ∧ precacheOk env urls = true ∧
        (urls.map (resolveUrl env)).Nodup := by
  unfold installWith cache_addAll
  by_cases ho : env.openFails name = true
  · simp [ho]
  · by_cases hc : precacheOk env urls = true ∧ (urls.map (resolveUrl env)).Nodup
    · simp [ho, hc]
    · simp only [ho, if_false, hc]
      constructor
      · intro h; cases h
      · rintro ⟨-, h⟩; exact h.elim

theorem installWith_storage (name : String) (urls : List String) (env : Env)
    (s : CacheStorage) (h : (installWith name urls env s).outcome = Settled.resolved ()) :
    (installWith name urls env s).storage =
      cache_putAll (caches_open s name) name (precacheEntries env urls) := by
  obtain ⟨ho, hp, hn⟩ := (installWith_resolved_iff name urls env s).mp h
  simp [installWith, cache_addAll, ho, hp, hn]

theorem installWith_skipWaiting_iff (name : String) (urls : List String) (env : Env)
    (s : CacheStorage) :
    Effect.skipWaiting ∈ (installWith name urls env s).trace ↔
      (installWith name urls env s).outcome = Settled.resolved () := by
  have hna := not_skipWaiting_mem_addAllTrace env name urls
  unfold installWith cache_addAll
  by_cases ho : env.openFails name = true
  · simp [ho]
  · by_cases hc : precacheOk env urls = true ∧ (urls.map (resolveUrl env)).Nodup
    · simp [ho, hc]
    · have ho2 : env.openFails name = false := Bool.eq_false_iff.mpr ho
      simp only [ho2, hc, if_false]
      constructor
      · intro h
        rcases List.mem_cons.mp h with h | h
        · cases h
        · exact absurd h hna
      · intro h; cases h

theorem caches_match_none (s : CacheStorage) (key : String)
    (h : caches_match s key = none) : ∀ g ∈ s, cache_match g.2 key = none := by
  unfold caches_match at h
  rw [List.findSome?_eq_none_iff] at h
  exact h

theorem mem_of_caches_get (s : CacheStorage) (name : String) (c : Cache)
    (h : caches_get s name = some c) : (name, c) ∈ s := by
  unfold caches_get at h
  rw [Option.map_eq_some'] at h
  obtain ⟨g, hg, hc⟩ := h
  have h1 := List.find?_some hg
  have h2 := List.mem_of_find?_eq_some hg
  have h3 : g.1 = name := by simpa using h1
  rw [← h3, ← hc]
  exact h2

/-! The claims on the fetch handler -/

/-- C1: cache-first. For a same-origin request whose key has a stored response the fetch
handler resolves with exactly that response, issues the cache lookup and nothing else (no
network fetch, no cache write) and leaves the storage as it was. In particular, after a
successful install followed by a successful activate, from any earlier storage, a request
for a URL of `urlsToCache` resolves with the response fetched at install time, without any
network fetch, whatever the network would answer now. -/
theorem fetch_cache_first :
    (∀ (env : Env) (s : CacheStorage) (request : Request) (response : Response),
      urlOrigin request.url = some env.origin →
      caches_match s request.url = some response →
        (fetchHandler env s request).outcome = some (Settled.resolved (some response)) ∧
        (fetchHandler env s request).trace = [Effect.cachesMatch request.url] ∧
        (∀ u, Effect.fetch u ∉ (fetchHandler env s request).trace) ∧
        (∀ n k r, Effect.cachePut n k r ∉ (fetchHandler env s request).trace) ∧
        (fetchHandler env s request).storage = s) ∧
    (∀ (envI envA env : Env) (s0 : CacheStorage) (path mode : String) (r : Response),
      envI.origin = env.origin →
      (install envI s0).outcome = Settled.resolved () →
      (activate envA (install envI s0).storage).outcome = Settled.resolved () →
      path ∈ urlsToCache →
      envI.net (resolveUrl envI path) = Settled.resolved (some r) →
        (fetchHandler env (activate envA (install envI s0).storage).storage
          ⟨resolveUrl env path, mode⟩).outcome = some (Settled.resolved (some r)) ∧
        (∀ u, Effect.fetch u ∉ (fetchHandler env (activate envA (install envI s0).storage).storage
          ⟨resolveUrl env path, mode⟩).trace) ∧
        (∀ n k r, Effect.cachePut n k r ∉
          (fetchHandler env (activate envA (install envI s0).storage).storage
            ⟨resolveUrl env path, mode⟩).trace)) := by
  constructor
  · intro env s request response hsame hhit
    rw [fetchHandler_hit env s request response (startsWith_urlOrigin _ _ hsame) hhit]
    simp
  · intro envI envA env s0 path mode r horigin hinst hact hpath hnet
    have hres : resolveUrl envI path = resolveUrl env path := by
      simp [resolveUrl, horigin]
    obtain ⟨-, hok, hnd⟩ := (installWith_resolved_iff CACHE_NAME urlsToCache envI s0).mp hinst
    obtain ⟨hk, hdel⟩ := (activate_resolved_iff envA _).mp hact
    have hpre : precacheResponse envI (resolveUrl envI path) = some r := by
      have hsome := (precacheOk_iff envI urlsToCache).mp hok path hpath
      unfold precacheResponse at hsome ⊢
      rw [hnet] at hsome ⊢
      simp only at hsome ⊢
      split
      · rfl
      · rename_i hbad
        simp [hbad] at hsome
    have hentry := mem_precacheEntries envI urlsToCache path r hpath hpre
    have hkeys : ((precacheEntries envI urlsToCache).map (fun e => e.1)).Nodup := by
      rw [precacheEntries_keys envI urlsToCache hok]
      exact hnd
    have hstore : (install envI s0).storage =
        cache_putAll (caches_open s0 CACHE_NAME) CACHE_NAME
          (precacheEntries envI urlsToCache) := installWith_storage _ _ _ _ hinst
    have hfinal : (activate envA (install envI s0).storage).storage =
        (install envI s0).storage.filter (fun g => g.1 = CACHE_NAME) := by
      rw [activate_storage envA _ hk, deleteAll_stale_ok envA _ hdel]
    have hhit : caches_match (activate envA (install envI s0).storage).storage
        (resolveUrl env path) = some r := by
      rw [hfinal, hstore, cache_putAll_eq_map]
      apply caches_match_of_all
      · obtain ⟨c, hc⟩ := caches_get_isSome _ _ (mem_caches_keys_open s0 CACHE_NAME)
        have hmem := mem_of_caches_get _ _ _ hc
        intro hempty
        have hin : (CACHE_NAME, Cache.putAll c (precacheEntries envI urlsToCache)) ∈
            List.filter (fun g => decide (g.1 = CACHE_NAME))
              (List.map (fun g => if g.1 = CACHE_NAME then
                (g.1, Cache.putAll g.2 (precacheEntries envI urlsToCache)) else g)
                (caches_open s0 CACHE_NAME)) := by
          rw [List.mem_filter]
          refine ⟨List.mem_map.mpr ⟨(CACHE_NAME, c), hmem, by simp⟩, by simp⟩
        rw [hempty] at hin
        simp at hin
      · intro g hg
        obtain ⟨hgm, hgn⟩ := List.mem_filter.mp hg
        obtain ⟨g0, -, hg0⟩ := List.mem_map.mp hgm
        have hgn2 : g.1 = CACHE_NAME := by simpa using hgn
        by_cases h0 : g0.1 = CACHE_NAME
        · rw [if_pos h0] at hg0
          rw [← hg0, ← hres]
          exact cache_match_putAll _ _ _ _ hkeys hentry
        · rw [if_neg h0] at hg0
          rw [hg0] at h0
          exact absurd hgn2 h0
    rw [fetchHandler_hit env _ ⟨resolveUrl env path, mode⟩ r
      (startsWith_resolveUrl env path) hhit]
    simp

/-- C1 at concrete inputs: with the device offline, the stored index page is served from
the cache; and after install and activate on an empty storage the offline page is served
with the body fetched at install time. -/
theorem fetch_cache_first_witness :
    ((fetchHandler offlineEnv indexStorage
        ⟨"https://farm.example/index.html", "navigate"⟩).outcome =
        some (Settled.resolved (some sampleResponse)) ∧
      (fetchHandler offlineEnv indexStorage
        ⟨"https://farm.example/index.html", "navigate"⟩).trace =
        [Effect.cachesMatch "https://farm.example/index.html"]) ∧
    (fetchHandler offlineEnv (activate onlineEnv (install onlineEnv []).storage).storage
        ⟨resolveUrl offlineEnv "/offline.html", "navigate"⟩).outcome =
      some (Settled.resolved (some ⟨200, "basic", "https://farm.example/offline.html"⟩)) :=
  ⟨⟨(fetch_cache_first.1 offlineEnv indexStorage
        ⟨"https://farm.example/index.html", "navigate"⟩ sampleResponse
        (by decide) (by decide)).1,
    (fetch_cache_first.1 offlineEnv indexStorage
        ⟨"https://farm.example/index.html", "navigate"⟩ sampleResponse
        (by decide) (by decide)).2.1⟩,
   (fetch_cache_first.2 onlineEnv onlineEnv offlineEnv [] "/offline.html" "navigate"
      ⟨200, "basic", "https://farm.example/offline.html"⟩ rfl (by decide) (by decide)
      (by decide) (by decide)).1⟩

/-- C2: the network branch. On a cache miss where the network fetch resolves with
`response`, the handler resolves with `response`. When the caching criteria fail (no
response, status other than 200, type other than 'basic') no put is issued and the storage
is unchanged: so for a 404 and for a status-200 opaque response. When they hold and the
store goes through, the storage is the one after `caches.open(CACHE_NAME)` and the put of
the response under the request's key. So, the store going through, the current generation
holds `r` under the request's key after the handler exactly when `response` is `r`, of
status 200 and type 'basic', and exactly then a put of `r` is issued. -/
theorem fetch_network_store (env : Env) (s : CacheStorage) (request : Request)
    (response : Option Response)
    (hsame : urlOrigin request.url = some env.origin)
    (hmiss : caches_match s request.url = none)
    (hnet : env.net request.url = Settled.resolved response) :
    (fetchHandler env s request).outcome = some (Settled.resolved response) ∧
    (notCacheable response = true →
      (fetchHandler env s request).storage = s ∧
      ∀ n k r, Effect.cachePut n k r ∉ (fetchHandler env s request).trace) ∧
    (∀ r, response = some r → r.status = 404 → (fetchHandler env s request).storage = s) ∧
    (∀ r, response = some r → r.status = 200 → r.type = "opaque" →
      (fetchHandler env s request).storage = s) ∧
    (env.openFails CACHE_NAME = false → env.putFails CACHE_NAME request.url = false →
      (∀ r, response = some r → r.status = 200 → r.type = "basic" →
        (fetchHandler env s request).storage =
          cache_put (caches_open s CACHE_NAME) CACHE_NAME request.url r) ∧
      (∀ r, (∃ c, caches_get (fetchHandler env s request).storage CACHE_NAME = some c ∧
              cache_match c request.url = some r) ↔
            (response = some r ∧ r.status = 200 ∧ r.type = "basic")) ∧
      (∀ r, Effect.cachePut CACHE_NAME request.url r ∈ (fetchHandler env s request).trace ↔
            (response = some r ∧ r.status = 200 ∧ r.type = "basic"))) := by
  have hsw := startsWith_urlOrigin _ _ hsame
  have hpass : notCacheable response = true →
      fetchHandler env s request =
        ⟨s, [Effect.cachesMatch request.url, Effect.fetch request.url],
          some (Settled.resolved response)⟩ :=
    fetchHandler_passthrough env s request response hsw hmiss hnet
  have hnoentry : ∀ c r, caches_get s CACHE_NAME = some c →
      cache_match c request.url = some r → False := by
    intro c r hc hr
    have := caches_match_none s request.url hmiss _ (mem_of_caches_get s CACHE_NAME c hc)
    rw [hr] at this
    cases this
  refine ⟨?_, ?_, ?_, ?_, ?_⟩
  · by_cases hnc : notCacheable response = true
    · rw [hpass hnc]
    · cases response with
      | none => simp [notCacheable] at hnc
      | some r =>
        rw [fetchHandler_store env s request r hsw hmiss hnet (by simpa using hnc)]
  · intro hnc
    rw [hpass hnc]
    simp
  · intro r hr h404
    rw [hpass (by simp [hr, notCacheable, h404])]
  · intro r hr _ hop
    rw [hpass (by simp [hr, notCacheable, hop])]
  · intro hopen hput
    have hstored : ∀ r, response = some r → r.status = 200 → r.type = "basic" →
        fetchHandler env s request =
          ⟨cache_put (caches_open s CACHE_NAME) CACHE_NAME request.url r,
            [Effect.cachesMatch request.url, Effect.fetch request.url,
              Effect.cachesOpen CACHE_NAME, Effect.cachePut CACHE_NAME request.url r],
            some (Settled.resolved (some r))⟩ := by
      intro r hr h200 hbasic
      subst hr
      rw [fetchHandler_store env s request r hsw hmiss hnet
        ((notCacheable_some r).mpr ⟨h200, hbasic⟩)]
      simp [storeCopy, storeTrace, hopen, hput]
    refine ⟨?_, ?_, ?_⟩
    · intro r hr h200 hbasic
      rw [hstored r hr h200 hbasic]
    · intro r
      constructor
      · rintro ⟨c, hc, hr⟩
        by_cases hnc : notCacheable response = true
        · rw [hpass hnc] at hc
          exact (hnoentry c r hc hr).elim
        · cases response with
          | none => simp [notCacheable] at hnc
          | some r0 =>
            obtain ⟨h200, hbasic⟩ := (notCacheable_some r0).mp (by simpa using hnc)
            rw [hstored r0 rfl h200 hbasic] at hc
            simp only at hc
            rw [caches_get_cache_put] at hc
            rw [Option.map_eq_some'] at hc
            obtain ⟨c0, -, hc0⟩ := hc
            rw [← hc0, cache_match_put, if_pos rfl] at hr
            cases hr
            exact ⟨rfl, h200, hbasic⟩
      · rintro ⟨hr, h200, hbasic⟩
        rw [hstored r hr h200 hbasic]
        simp only
        rw [caches_get_cache_put]
        obtain ⟨c0, hc0⟩ := caches_get_isSome _ _ (mem_caches_keys_open s CACHE_NAME)
        exact ⟨Cache.put c0 request.url r, by simp [hc0], by simp [cache_match_put]⟩
    · intro r
      constructor
      · intro hmem
        by_cases hnc : notCacheable response = true
        · rw [hpass hnc] at hmem
          simp at hmem
        · cases response with
          | none => simp [notCacheable] at hnc
          | some r0 =>
            obtain ⟨h200, hbasic⟩ := (notCacheable_some r0).mp (by simpa using hnc)
            rw [hstored r0 rfl h200 hbasic] at hmem
            simp at hmem
            subst hmem
            exact ⟨rfl, h200, hbasic⟩
      · rintro ⟨hr, h200, hbasic⟩
        rw [hstored r hr h200 hbasic]
        simp

/-- C2 at concrete inputs, on an empty storage: a status-200 basic response is returned and
stored in 'poultry-farm-v3'; a 404 and a status-200 opaque response are returned and the
storage stays empty. -/
theorem fetch_network_store_witness :
    ((fetchHandler onlineEnv [] ⟨"https://farm.example/data.json", "cors"⟩).outcome =
        some (Settled.resolved (some ⟨200, "basic", "https://farm.example/data.json"⟩)) ∧
      (fetchHandler onlineEnv [] ⟨"https://farm.example/data.json", "cors"⟩).storage =
        [("poultry-farm-v3", [("https://farm.example/data.json",
          ⟨200, "basic", "https://farm.example/data.json"⟩)])]) ∧
    ((fetchHandler notFoundEnv [] ⟨"https://farm.example/data.json", "cors"⟩).outcome =
        some (Settled.resolved (some ⟨404, "basic", "not found"⟩)) ∧
      (fetchHandler notFoundEnv [] ⟨"https://farm.example/data.json", "cors"⟩).storage = []) ∧
    ((fetchHandler opaqueOkEnv [] ⟨"https://farm.example/data.json", "cors"⟩).outcome =
        some (Settled.resolved (some ⟨200, "opaque", ""⟩)) ∧
      (fetchHandler opaqueOkEnv [] ⟨"https://farm.example/data.json", "cors"⟩).storage = []) :=
  ⟨⟨(fetch_network_store onlineEnv [] ⟨"https://farm.example/data.json", "cors"⟩
        (some ⟨200, "basic", "https://farm.example/data.json"⟩)
        (by decide) (by decide) rfl).1,
    ((fetch_network_store onlineEnv [] ⟨"https://farm.example/data.json", "cors"⟩
        (some ⟨200, "basic", "https://farm.example/data.json"⟩)
        (by decide) (by decide) rfl).2.2.2.2 rfl rfl).1 _ rfl rfl rfl⟩,
   ⟨(fetch_network_store notFoundEnv [] ⟨"https://farm.example/data.json", "cors"⟩
        (some ⟨404, "basic", "not found"⟩) (by decide) (by decide) rfl).1,
    (fetch_network_store notFoundEnv [] ⟨"https://farm.example/data.json", "cors"⟩
        (some ⟨404, "basic", "not found"⟩) (by decide) (by decide) rfl).2.2.1 _ rfl rfl⟩,
   ⟨(fetch_network_store opaqueOkEnv [] ⟨"https://farm.example/data.json", "cors"⟩
        (some ⟨200, "opaque", ""⟩) (by decide) (by decide) rfl).1,
    (fetch_network_store opaqueOkEnv [] ⟨"https://farm.example/data.json", "cors"⟩
        (some ⟨200, "opaque", ""⟩) (by decide) (by decide) rfl).2.2.2.1 _ rfl rfl rfl⟩⟩

/-- C3: offline fallback. For a same-origin request that misses the cache and whose network
fetch rejects, the handler resolves with the result of the lookup of '/offline.html' in the
cache storage: whenever a response is stored under '/offline.html', the response returned
is exactly that one, and the storage is unchanged. -/
theorem fetch_offline_fallback (env : Env) (s : CacheStorage) (request : Request)
    (hsame : urlOrigin request.url = some env.origin)
    (hmiss : caches_match s request.url = none)
    (hnet : env.net request.url = Settled.rejected) :
    (fetchHandler env s request).outcome =
      some (Settled.resolved (caches_match s (resolveUrl env "/offline.html"))) ∧
    (∀ r, caches_match s (resolveUrl env "/offline.html") = some r →
      (fetchHandler env s request).outcome = some (Settled.resolved (some r))) ∧
    (fetchHandler env s request).storage = s := by
  rw [fetchHandler_offline env s request (startsWith_urlOrigin _ _ hsame) hmiss hnet]
  refine ⟨rfl, ?_, rfl⟩
  intro r hr
  rw [hr]

/-- C3 at a concrete input: offline, a page that was never cached is answered with the
stored offline document. -/
theorem fetch_offline_fallback_witness :
    (fetchHandler offlineEnv (install onlineEnv []).storage
        ⟨"https://farm.example/reports.html", "navigate"⟩).outcome =
      some (Settled.resolved (some ⟨200, "basic", "https://farm.example/offline.html"⟩)) :=
  (fetch_offline_fallback offlineEnv (install onlineEnv []).storage
    ⟨"https://farm.example/reports.html", "navigate"⟩
    (by decide) (by decide) rfl).2.1 _ (by decide)

/-- C4, evaluated at origin 'https://farm.example' and URL
'https://farm.example.evil.test/x': the origin of the URL is not the worker's origin, yet
the URL starts with the worker's origin string, so the handler calls `respondWith`, looks
the request up in the cache, fetches it and answers with the fetched response. -/
theorem fetch_prefix_origin_intercepted :
    urlOrigin "https://farm.example.evil.test/x" = some "https://farm.example.evil.test" ∧
    urlOrigin "https://farm.example.evil.test/x" ≠ some opaqueEnv.origin ∧
    startsWith "https://farm.example.evil.test/x" opaqueEnv.origin = true ∧
    (fetchHandler opaqueEnv [] ⟨"https://farm.example.evil.test/x", "no-cors"⟩).trace =
      [Effect.cachesMatch "https://farm.example.evil.test/x",
        Effect.fetch "https://farm.example.evil.test/x"] ∧
    (fetchHandler opaqueEnv [] ⟨"https://farm.example.evil.test/x", "no-cors"⟩).outcome =
      some (Settled.resolved (some ⟨0, "opaque", ""⟩)) ∧
    (fetchHandler opaqueEnv indexStorage
        ⟨"https://farm.example.evil.test/x", "no-cors"⟩).outcome ≠ none := by
  decide

/-! The claims on the activate handler -/

theorem filter_eq_singleton (l : List String) (a : String) (hnd : l.Nodup) (ha : a ∈ l) :
    l.filter (fun n => decide (n = a)) = [a] := by
  induction l with
  | nil => simp at ha
  | cons b rest ih =>
    rw [List.nodup_cons] at hnd
    by_cases hb : b = a
    · subst hb
      have hnone : rest.filter (fun n => decide (n = b)) = [] := by
        rw [List.filter_eq_nil_iff]
        intro x hx hxb
        have : x = b := by simpa using hxb
        exact hnd.1 (this ▸ hx)
      simp [List.filter, hnone]
    · have hrest : a ∈ rest := by
        rcases List.mem_cons.mp ha with h | h
        · exact absurd h.symm hb
        · exact h
      simp [List.filter, hb, ih hnd.2 hrest]

theorem caches_keys_filter (s : CacheStorage) (p : String → Bool) :
    caches_keys (s.filter (fun g => p g.1)) = (caches_keys s).filter p := by
  unfold caches_keys
  rw [List.filter_map]
  rfl

theorem caches_get_filter_self (s : CacheStorage) (name : String) :
    caches_get (s.filter (fun g => decide (g.1 = name))) name = caches_get s name := by
  unfold caches_get
  rw [List.find?_filter]
  congr 1
  congr 1
  funext g
  simp

theorem activate_trace (env : Env) (s : CacheStorage) (hk : env.keysFails = false) :
    ∀ e, e ∈ (activate env s).trace ↔
      e = Effect.cachesKeys ∨ e ∈ (staleNames s).map Effect.cachesDelete ∨
        (e = Effect.clientsClaim ∧ (activate env s).outcome = Settled.resolved ()) := by
  intro e
  unfold activate
  by_cases hd : (staleNames s).any env.deleteFails = true
  · simp [hk, hd]
  · simp [hk, hd]

/-- C5: generation exclusivity. When the storage holds the current generation and activate
succeeds, the generation names left are exactly 'poultry-farm-v3': every other generation
was asked to be deleted and is gone, the current one was not asked to be deleted and is
kept with its contents, and for a storage without repeated names the list of names left is
the single name 'poultry-farm-v3'. -/
theorem activate_exclusive (env : Env) (s : CacheStorage)
    (hcur : CACHE_NAME ∈ caches_keys s)
    (hok : (activate env s).outcome = Settled.resolved ()) :
    (∀ n, n ∈ caches_keys (activate env s).storage ↔ n = CACHE_NAME) ∧
    (∀ n ∈ caches_keys s, n ≠ CACHE_NAME →
      Effect.cachesDelete n ∈ (activate env s).trace ∧
      n ∉ caches_keys (activate env s).storage) ∧
    Effect.cachesDelete CACHE_NAME ∉ (activate env s).trace ∧
    caches_get (activate env s).storage CACHE_NAME = caches_get s CACHE_NAME ∧
    ((caches_keys s).Nodup → caches_keys (activate env s).storage = [CACHE_NAME]) := by
  obtain ⟨hk, hdel⟩ := (activate_resolved_iff env s).mp hok
  have hst : (activate env s).storage = s.filter (fun g => decide (g.1 = CACHE_NAME)) := by
    rw [activate_storage env s hk, deleteAll_stale_ok env s hdel]
  have hkeys : caches_keys (activate env s).storage =
      (caches_keys s).filter (fun n => decide (n = CACHE_NAME)) := by
    rw [hst]
    exact caches_keys_filter s (fun n => decide (n = CACHE_NAME))
  have hiff : ∀ n, n ∈ caches_keys (activate env s).storage ↔ n = CACHE_NAME := by
    intro n
    rw [hkeys, List.mem_filter]
    constructor
    · intro h; simpa using h.2
    · intro h; subst h; exact ⟨hcur, by simp⟩
  refine ⟨hiff, ?_, ?_, ?_, ?_⟩
  · intro n hn hne
    refine ⟨?_, fun h => hne ((hiff n).mp h)⟩
    rw [activate_trace env s hk]
    right; left
    exact List.mem_map_of_mem _ ((mem_staleNames s n).mpr ⟨hn, hne⟩)
  · rw [activate_trace env s hk]
    rintro (h | h | h)
    · cases h
    · obtain ⟨n, hn, he⟩ := List.mem_map.mp h
      have hnc : n = CACHE_NAME := by injection he
      exact ((mem_staleNames s n).mp hn).2 hnc
    · cases h.1
  · rw [hst]
    exact caches_get_filter_self s CACHE_NAME
  · intro hnd
    rw [hkeys]
    exact filter_eq_singleton _ _ hnd hcur

/-- C5 at the storage with the generations v2 and v3: after activate only v3 is left. -/
theorem activate_exclusive_witness :
    caches_keys (activate onlineEnv twoGenerations).storage = ["poultry-farm-v3"] :=
  (activate_exclusive onlineEnv twoGenerations (by decide) (by decide)).2.2.2.2 (by decide)

/-- C6 refuted at the storage with the generations v1, v2 and v3 when the deletion of v1
rejects: the deletion of v2 is carried out, but the operation awaited by the activate
event rejects and `clients.claim` is not called. -/
theorem activate_delete_failure_rejects :
    deleteFailsEnv.deleteFails "poultry-farm-v1" = true ∧
    caches_keys (activate deleteFailsEnv threeGenerations).storage =
      ["poultry-farm-v1", "poultry-farm-v3"] ∧
    (activate deleteFailsEnv threeGenerations).outcome = Settled.rejected ∧
    Effect.clientsClaim ∉ (activate deleteFailsEnv threeGenerations).trace := by
  decide

/-- C6 as amended: when the deletion of a stale generation rejects during activate, the
deletion of every stale generation is still asked for and every stale generation whose own
deletion does not reject is gone afterwards, but the operation awaited by the activate
event rejects and `clients.claim` is not called. -/
theorem activate_delete_failure (env : Env) (s : CacheStorage) (n : String)
    (hk : env.keysFails = false)
    (hn : n ∈ staleNames s) (hfail : env.deleteFails n = true) :
    (∀ m ∈ staleNames s, Effect.cachesDelete m ∈ (activate env s).trace) ∧
    (∀ m ∈ staleNames s, env.deleteFails m = false →
      m ∉ caches_keys (activate env s).storage) ∧
    (activate env s).outcome = Settled.rejected ∧
    Effect.clientsClaim ∉ (activate env s).trace := by
  have hrej : (activate env s).outcome = Settled.rejected := by
    have hany : (staleNames s).any env.deleteFails = true :=
      List.any_eq_true.mpr ⟨n, hn, hfail⟩
    simp [activate, hk, hany]
  refine ⟨?_, ?_, hrej, ?_⟩
  · intro m hm
    rw [activate_trace env s hk]
    right; left
    exact List.mem_map_of_mem _ hm
  · intro m hm hmok hmem
    rw [activate_storage env s hk, deleteAll_eq] at hmem
    unfold caches_keys at hmem
    obtain ⟨g, hg, hgm⟩ := List.mem_map.mp hmem
    have hkeep := (List.mem_filter.mp hg).2
    subst hgm
    simp [hm, hmok] at hkeep
  · rw [activate_trace env s hk]
    rintro (h | h | h)
    · cases h
    · obtain ⟨m, -, he⟩ := List.mem_map.mp h
      cases he
    · rw [hrej] at h
      cases h.2

/-- C6 as amended, at the storage with v1, v2 and v3 when the deletion of v1 rejects: v2 is
deleted and the activation rejects. -/
theorem activate_delete_failure_witness :
    "poultry-farm-v2" ∉ caches_keys (activate deleteFailsEnv threeGenerations).storage ∧
    (activate deleteFailsEnv threeGenerations).outcome = Settled.rejected :=
  ⟨(activate_delete_failure deleteFailsEnv threeGenerations "poultry-farm-v1"
      rfl (by decide) (by decide)).2.1 "poultry-farm-v2" (by decide) (by decide),
   (activate_delete_failure deleteFailsEnv threeGenerations "poultry-farm-v1"
      rfl (by decide) (by decide)).2.2.1⟩

/-! The claims on the install handler -/

theorem precacheResponse_rejected (env : Env) (url : String)
    (h : env.net url = Settled.rejected) : precacheResponse env url = none := by
  simp [precacheResponse, h]

/-- C7: install is all or nothing. Provided the cache opens, the operation awaited by the
install event resolves and `skipWaiting` is called exactly when the precache fetch of every
URL of `urlsToCache` succeeds. For every manifest, if the precache fetch of one of its URLs
fails (in particular when the network fetch rejects), the operation rejects and
`skipWaiting` is not called. -/
theorem install_all_or_nothing :
    (∀ (env : Env) (s : CacheStorage), env.openFails CACHE_NAME = false →
      (((install env s).outcome = Settled.resolved () ∧
          Effect.skipWaiting ∈ (install env s).trace) ↔
        ∀ u ∈ urlsToCache, (precacheResponse env (resolveUrl env u)).isSome = true)) ∧
    (∀ (name : String) (urls : List String) (env : Env) (s : CacheStorage) (u : String),
      u ∈ urls → precacheResponse env (resolveUrl env u) = none →
        (installWith name urls env s).outcome = Settled.rejected ∧
        Effect.skipWaiting ∉ (installWith name urls env s).trace) ∧
    (∀ (env : Env) (url : String), env.net url = Settled.rejected →
      precacheResponse env url = none) := by
  refine ⟨?_, ?_, precacheResponse_rejected⟩
  · intro env s hopen
    unfold install
    rw [installWith_skipWaiting_iff, and_self, installWith_resolved_iff, ← precacheOk_iff]
    constructor
    · intro h; exact h.2.1
    · intro h; exact ⟨hopen, h, urlsToCache_keys_nodup env⟩
  · intro name urls env s u hu hfail
    have hnot : ¬ (installWith name urls env s).outcome = Settled.resolved () := by
      rw [installWith_resolved_iff, precacheOk_iff]
      rintro ⟨-, h, -⟩
      have := h u hu
      rw [hfail] at this
      cases this
    refine ⟨?_, fun h => hnot ((installWith_skipWaiting_iff name urls env s).mp h)⟩
    cases hout : (installWith name urls env s).outcome with
    | rejected => rfl
    | resolved v => exact absurd hout hnot

/-- C7 at concrete inputs: with every fetch succeeding install resolves; with the manifest
'/a.html', '/b.css' and the fetch of '/b.css' rejecting, install rejects and `skipWaiting`
is not called. -/
theorem install_all_or_nothing_witness :
    (install onlineEnv []).outcome = Settled.resolved () ∧
    (installWith CACHE_NAME ["/a.html", "/b.css"] cssFailsEnv []).outcome = Settled.rejected ∧
    Effect.skipWaiting ∉ (installWith CACHE_NAME ["/a.html", "/b.css"] cssFailsEnv []).trace :=
  ⟨((install_all_or_nothing.1 onlineEnv [] rfl).mpr (by decide)).1,
   install_all_or_nothing.2.1 CACHE_NAME ["/a.html", "/b.css"] cssFailsEnv [] "/b.css"
     (by decide) (by decide)⟩

/-- C8: install is idempotent on the keys of the current generation. When install succeeds
twice in a row (the network may answer differently the second time), the generation
'poultry-farm-v3' has the same keys, in the same order, after the second run as after the
first. When the storage before the first run has no generation 'poultry-farm-v3' (as the
empty storage), these keys are exactly the URLs of `urlsToCache`, resolved: 18 entries, no
key twice. -/
theorem install_idempotent (env1 env2 : Env) (s0 : CacheStorage)
    (horigin : env1.origin = env2.origin)
    (h1 : (install env1 s0).outcome = Settled.resolved ())
    (h2 : (install env2 (install env1 s0).storage).outcome = Settled.resolved ()) :
    ∃ c1 c2,
      caches_get (install env1 s0).storage CACHE_NAME = some c1 ∧
      caches_get (install env2 (install env1 s0).storage).storage CACHE_NAME = some c2 ∧
      c2.keys = c1.keys ∧
      (CACHE_NAME ∉ caches_keys s0 →
        c1.keys = urlsToCache.map (resolveUrl env1) ∧
        c2.keys = urlsToCache.map (resolveUrl env1) ∧
        c2.keys.Nodup ∧ c2.length = 18) := by
  obtain ⟨-, hok1, hnd1⟩ := (installWith_resolved_iff CACHE_NAME urlsToCache env1 s0).mp h1
  obtain ⟨-, hok2, -⟩ := (installWith_resolved_iff CACHE_NAME urlsToCache env2 _).mp h2
  have hs1 : (install env1 s0).storage =
      cache_putAll (caches_open s0 CACHE_NAME) CACHE_NAME
        (precacheEntries env1 urlsToCache) := installWith_storage _ _ _ _ h1
  have hs2 : (install env2 (install env1 s0).storage).storage =
      cache_putAll (caches_open (install env1 s0).storage CACHE_NAME) CACHE_NAME
        (precacheEntries env2 urlsToCache) := installWith_storage _ _ _ _ h2
  have hk1 := precacheEntries_keys env1 urlsToCache hok1
  have hk2 : (precacheEntries env2 urlsToCache).map (fun e => e.1) =
      urlsToCache.map (resolveUrl env1) := by
    rw [precacheEntries_keys env2 urlsToCache hok2]
    apply List.map_congr_left
    intro u _
    simp [resolveUrl, horigin]
  have hin1 : CACHE_NAME ∈ caches_keys (install env1 s0).storage := by
    rw [hs1, caches_keys_putAll]
    exact mem_caches_keys_open s0 CACHE_NAME
  obtain ⟨c0, hc0⟩ := caches_get_isSome _ _ (mem_caches_keys_open s0 CACHE_NAME)
  have hg1 : caches_get (install env1 s0).storage CACHE_NAME =
      some (Cache.putAll c0 (precacheEntries env1 urlsToCache)) := by
    rw [hs1, caches_get_putAll, hc0]
    rfl
  have hg2 : caches_get (install env2 (install env1 s0).storage).storage CACHE_NAME =
      some (Cache.putAll (Cache.putAll c0 (precacheEntries env1 urlsToCache))
        (precacheEntries env2 urlsToCache)) := by
    rw [hs2, caches_open_of_mem _ _ hin1, caches_get_putAll, hg1]
    rfl
  have hkeys1 := keys_putAll c0 (precacheEntries env1 urlsToCache) (by rw [hk1]; exact hnd1)
  have hkeys2 := keys_putAll (Cache.putAll c0 (precacheEntries env1 urlsToCache))
    (precacheEntries env2 urlsToCache) (by rw [hk2]; exact hnd1)
  rw [hk1] at hkeys1
  rw [hk2, hkeys1] at hkeys2
  have hsame : (Cache.putAll (Cache.putAll c0 (precacheEntries env1 urlsToCache))
      (precacheEntries env2 urlsToCache)).keys =
      (Cache.putAll c0 (precacheEntries env1 urlsToCache)).keys := by
    rw [hkeys2, hkeys1, List.filter_append]
    have hgone : List.filter (fun k => decide (k ∉ urlsToCache.map (resolveUrl env1)))
        (urlsToCache.map (resolveUrl env1)) = [] := by
      rw [List.filter_eq_nil_iff]
      intro a ha
      simpa using ha
    have hstay : List.filter (fun k => decide (k ∉ urlsToCache.map (resolveUrl env1)))
        (List.filter (fun k => decide (k ∉ urlsToCache.map (resolveUrl env1))) c0.keys) =
        List.filter (fun k => decide (k ∉ urlsToCache.map (resolveUrl env1))) c0.keys := by
      rw [List.filter_eq_self]
      intro a ha
      exact (List.mem_filter.mp ha).2
    rw [hgone, hstay, List.append_nil]
  refine ⟨_, _, hg1, hg2, hsame, ?_⟩
  intro hfresh
  have hc0nil : c0 = [] := by
    have := caches_get_open_fresh s0 CACHE_NAME hfresh
    rw [hc0] at this
    exact Option.some.inj this
  have hfirst : (Cache.putAll c0 (precacheEntries env1 urlsToCache)).keys =
      urlsToCache.map (resolveUrl env1) := by
    rw [hkeys1, hc0nil]
    simp [Cache.keys]
  have hsecond := hsame.trans hfirst
  refine ⟨hfirst, hsecond, ?_, ?_⟩
  · rw [hsecond]
    exact hnd1
  · have hlen := congrArg List.length hsecond
    simp only [Cache.keys, List.length_map] at hlen
    rw [hlen]
    rfl

/-- C8 on the empty storage: after the second run the generation 'poultry-farm-v3' holds
exactly the resolved URLs of the manifest. -/
theorem install_idempotent_witness :
    (caches_get (install onlineEnv (install onlineEnv []).storage).storage CACHE_NAME).map
        Cache.keys = some (urlsToCache.map (resolveUrl onlineEnv)) ∧
    (caches_get (install onlineEnv []).storage CACHE_NAME).map Cache.keys =
      some (urlsToCache.map (resolveUrl onlineEnv)) := by
  obtain ⟨c1, c2, hc1, hc2, -, hfresh⟩ :=
    install_idempotent onlineEnv onlineEnv [] rfl (by decide) (by decide)
  obtain ⟨hk1, hk2, -, -⟩ := hfresh (by decide)
  rw [hc1, hc2]
  simp [hk1, hk2]

/-! The claims on the lookup and on network failure -/

theorem caches_match_first (pre post : CacheStorage) (name key : String) (c : Cache)
    (r : Response) (hpre : caches_match pre key = none) (hc : cache_match c key = some r) :
    caches_match (pre ++ (name, c) :: post) key = some r := by
  unfold caches_match at hpre ⊢
  rw [List.findSome?_append, hpre]
  simp [List.findSome?, hc]

/-- C9 refuted at a storage where a page is stored in the stale generation
'poultry-farm-v2' only: the current generation has no entry for the request, yet the
handler answers with the response of the stale generation, as a cache hit, without any
network fetch. -/
theorem fetch_hit_in_stale_generation :
    (caches_get staleStorage CACHE_NAME).bind
        (fun c => cache_match c "https://farm.example/old.html") = none ∧
    (caches_get staleStorage "poultry-farm-v2").bind
        (fun c => cache_match c "https://farm.example/old.html") = some sampleResponse ∧
    (fetchHandler offlineEnv staleStorage ⟨"https://farm.example/old.html", "navigate"⟩).outcome
      = some (Settled.resolved (some sampleResponse)) ∧
    (fetchHandler offlineEnv staleStorage ⟨"https://farm.example/old.html", "navigate"⟩).trace
      = [Effect.cachesMatch "https://farm.example/old.html"] := by
  decide

/-- C9 as amended: the lookup of the fetch handler searches every generation of the
storage, in creation order. A response stored under the request's key in a generation of
any name, with no entry for the key in the generations created before it, is returned as a
cache hit; when 'poultry-farm-v3' is the only generation the answer of the lookup is the
answer of that generation. -/
theorem fetch_lookup_all_generations :
    (∀ (env : Env) (pre post : CacheStorage) (name : String) (c : Cache) (request : Request)
        (r : Response),
      urlOrigin request.url = some env.origin →
      caches_match pre request.url = none →
      cache_match c request.url = some r →
        (fetchHandler env (pre ++ (name, c) :: post) request).outcome =
          some (Settled.resolved (some r)) ∧
        (fetchHandler env (pre ++ (name, c) :: post) request).trace =
          [Effect.cachesMatch request.url]) ∧
    (∀ (c : Cache) (key : String),
      caches_match [(CACHE_NAME, c)] key = cache_match c key) := by
  constructor
  · intro env pre post name c request r hsame hpre hc
    rw [fetchHandler_hit env _ request r (startsWith_urlOrigin _ _ hsame)
      (caches_match_first pre post name request.url c r hpre hc)]
    exact ⟨rfl, rfl⟩
  · intro c key
    unfold caches_match
    cases h : cache_match c key <;> simp [List.findSome?, h]

/-- C9 as amended, at the storage where a page is stored in 'poultry-farm-v2' only. -/
theorem fetch_lookup_all_generations_witness :
    (fetchHandler offlineEnv
        ([] ++ ("poultry-farm-v2", [("https://farm.example/old.html", sampleResponse)]) ::
          [("poultry-farm-v3", [])])
        ⟨"https://farm.example/old.html", "navigate"⟩).outcome =
      some (Settled.resolved (some sampleResponse)) :=
  (fetch_lookup_all_generations.1 offlineEnv [] [("poultry-farm-v3", [])] "poultry-farm-v2"
    [("https://farm.example/old.html", sampleResponse)]
    ⟨"https://farm.example/old.html", "navigate"⟩ sampleResponse
    (by decide) (by decide) (by decide)).1

/-- C10 refuted on the empty storage: the request is same-origin, the network fetch
rejects, and the promise passed to `respondWith` resolves with no response. -/
theorem fetch_failure_without_offline_page :
    urlOrigin "https://farm.example/dashboard.html" = some offlineEnv.origin ∧
    offlineEnv.net "https://farm.example/dashboard.html" = Settled.rejected ∧
    (fetchHandler offlineEnv [] ⟨"https://farm.example/dashboard.html", "navigate"⟩).outcome =
      some (Settled.resolved none) := by
  decide

/-- C10 as amended: for a same-origin request that misses the cache and whose network fetch
rejects, in every state of the cache storage, the promise passed to `respondWith` does not
reject: it resolves with the offline-fallback response when a response is stored under
'/offline.html', and with no response when none is stored. -/
theorem fetch_failure_resolves (env : Env) (s : CacheStorage) (request : Request)
    (hsame : urlOrigin request.url = some env.origin)
    (hmiss : caches_match s request.url = none)
    (hnet : env.net request.url = Settled.rejected) :
    (fetchHandler env s request).outcome ≠ none ∧
    (fetchHandler env s request).outcome ≠ some Settled.rejected ∧
    (∀ r, caches_match s (resolveUrl env "/offline.html") = some r →
      (fetchHandler env s request).outcome = some (Settled.resolved (some r))) ∧
    (caches_match s (resolveUrl env "/offline.html") = none →
      (fetchHandler env s request).outcome = some (Settled.resolved none)) := by
  rw [fetchHandler_offline env s request (startsWith_urlOrigin _ _ hsame) hmiss hnet]
  refine ⟨by simp, by simp, ?_, ?_⟩
  · intro r hr
    rw [hr]
  · intro hr
    rw [hr]

/-- C10 as amended, at a concrete input: the offline page is stored in the current
generation, the device is offline, and a page that is not cached is answered with it. -/
theorem fetch_failure_resolves_witness :
    (fetchHandler offlineEnv
        [("poultry-farm-v3", [("https://farm.example/offline.html", sampleResponse)])]
        ⟨"https://farm.example/dashboard.html", "navigate"⟩).outcome =
      some (Settled.resolved (some sampleResponse)) :=
  (fetch_failure_resolves offlineEnv
    [("poultry-farm-v3", [("https://farm.example/offline.html", sampleResponse)])]
    ⟨"https://farm.example/dashboard.html", "navigate"⟩
    (by decide) (by decide) rfl).2.2.1 sampleResponse (by decide)

/-! The claims on the fallback and on the store -/

/-- C11: the offline fallback does not depend on the kind of request. For two same-origin
requests that both miss the cache and whose network fetch rejects, whatever their modes
('navigate' or any other) and URLs, the handler gives the same answer: the result of the
lookup of '/offline.html', so the response stored under '/offline.html' whenever there is
one. -/
theorem fetch_offline_same_for_all (env : Env) (s : CacheStorage) (nav sub : Request)
    (hsameN : urlOrigin nav.url = some env.origin)
    (hsameS : urlOrigin sub.url = some env.origin)
    (hmissN : caches_match s nav.url = none) (hmissS : caches_match s sub.url = none)
    (hnetN : env.net nav.url = Settled.rejected)
    (hnetS : env.net sub.url = Settled.rejected) :
    (fetchHandler env s nav).outcome = (fetchHandler env s sub).outcome ∧
    (fetchHandler env s nav).outcome =
      some (Settled.resolved (caches_match s (resolveUrl env "/offline.html"))) ∧
    (∀ r, caches_match s (resolveUrl env "/offline.html") = some r →
      (fetchHandler env s nav).outcome = some (Settled.resolved (some r)) ∧
      (fetchHandler env s sub).outcome = some (Settled.resolved (some r))) := by
  have hN := fetchHandler_offline env s nav (startsWith_urlOrigin _ _ hsameN) hmissN hnetN
  have hS := fetchHandler_offline env s sub (startsWith_urlOrigin _ _ hsameS) hmissS hnetS
  rw [hN, hS]
  refine ⟨rfl, rfl, ?_⟩
  intro r hr
  rw [hr]
  exact ⟨rfl, rfl⟩

/-- C11 at concrete inputs: offline, a page navigation and a stylesheet request that are
not cached both get the stored offline document. -/
theorem fetch_offline_same_for_all_witness :
    (fetchHandler offlineEnv (install onlineEnv []).storage
        ⟨"https://farm.example/reports.html", "navigate"⟩).outcome =
      (fetchHandler offlineEnv (install onlineEnv []).storage
        ⟨"https://farm.example/print.css", "no-cors"⟩).outcome ∧
    (fetchHandler offlineEnv (install onlineEnv []).storage
        ⟨"https://farm.example/print.css", "no-cors"⟩).outcome =
      some (Settled.resolved (some ⟨200, "basic", "https://farm.example/offline.html"⟩)) :=
  ⟨(fetch_offline_same_for_all offlineEnv (install onlineEnv []).storage
      ⟨"https://farm.example/reports.html", "navigate"⟩
      ⟨"https://farm.example/print.css", "no-cors"⟩
      (by decide) (by decide) (by decide) (by decide) rfl rfl).1,
   ((fetch_offline_same_for_all offlineEnv (install onlineEnv []).storage
      ⟨"https://farm.example/reports.html", "navigate"⟩
      ⟨"https://farm.example/print.css", "no-cors"⟩
      (by decide) (by decide) (by decide) (by decide) rfl rfl).2.2
        _ (by decide)).2⟩

/-- C12: a failure of the store does not change the answer. On a cache miss where the
network fetch resolves with a status-200 basic response `r`, the handler resolves with `r`
whether or not opening the current generation or the put into it rejects: the outcome is
the one obtained when the store succeeds. When the open rejects the storage is unchanged;
when only the put rejects the storage is the one after `caches.open`. -/
theorem fetch_store_failure_harmless (env : Env) (s : CacheStorage) (request : Request)
    (r : Response)
    (hsame : urlOrigin request.url = some env.origin)
    (hmiss : caches_match s request.url = none)
    (hnet : env.net request.url = Settled.resolved (some r))
    (h200 : r.status = 200) (hbasic : r.type = "basic") :
    (fetchHandler env s request).outcome = some (Settled.resolved (some r)) ∧
    (fetchHandler env s request).outcome =
      (fetchHandler { env with openFails := fun _ => false, putFails := fun _ _ => false }
        s request).outcome ∧
    (env.openFails CACHE_NAME = true → (fetchHandler env s request).storage = s) ∧
    (env.openFails CACHE_NAME = false → env.putFails CACHE_NAME request.url = true →
      (fetchHandler env s request).storage = caches_open s CACHE_NAME) := by
  have hc := (notCacheable_some r).mpr ⟨h200, hbasic⟩
  have hsw := startsWith_urlOrigin _ _ hsame
  have h1 := fetchHandler_store env s request r hsw hmiss hnet hc
  have h2 := fetchHandler_store
    { env with openFails := fun _ => false, putFails := fun _ _ => false } s request r
    hsw hmiss hnet hc
  rw [h1, h2]
  refine ⟨rfl, rfl, ?_, ?_⟩
  · intro ho
    simp [storeCopy, ho]
  · intro ho hp
    simp [storeCopy, ho, hp]

/-- C12 at concrete inputs: with the open rejecting, and with the put rejecting, the
network response is returned all the same. -/
theorem fetch_store_failure_harmless_witness :
    (fetchHandler openFailsEnv [] ⟨"https://farm.example/data.json", "cors"⟩).outcome =
      some (Settled.resolved (some ⟨200, "basic", "https://farm.example/data.json"⟩)) ∧
    (fetchHandler putFailsEnv [] ⟨"https://farm.example/data.json", "cors"⟩).outcome =
      some (Settled.resolved (some ⟨200, "basic", "https://farm.example/data.json"⟩)) :=
  ⟨(fetch_store_failure_harmless openFailsEnv [] ⟨"https://farm.example/data.json", "cors"⟩
      ⟨200, "basic", "https://farm.example/data.json"⟩
      (by decide) (by decide) rfl rfl rfl).1,
   (fetch_store_failure_harmless putFailsEnv [] ⟨"https://farm.example/data.json", "cors"⟩
      ⟨200, "basic", "https://farm.example/data.json"⟩
      (by decide) (by decide) rfl rfl rfl).1⟩

/-! The claims on the push, notification and sync handlers -/

/-- C13: a push event without payload. The handler returns without showing a notification,
without calling `event.waitUntil` and without throwing; no operation is issued and the
storage is unchanged. -/
theorem push_without_payload (ui : UiEnv) (s : CacheStorage) :
    (pushHandler ui s none).trace = [] ∧
    (pushHandler ui s none).outcome = Ending.returned ∧
    (pushHandler ui s none).storage = s := by
  exact ⟨rfl, rfl, rfl⟩

/-- C14 refuted at the payload with title "Alert", body "High temp" and the `url` field
present and empty: the target URL stored in the notification is '/', not the field. -/
theorem push_empty_url_defaults :
    emptyUrlPayload.url = some "" ∧
    (pushHandler quietUi [] (some (some emptyUrlPayload))).trace =
      [Effect.showNotification
        { title := "Alert"
          body := "High temp"
          icon := "/icons/icon-192x192.png"
          badge := "/icons/icon-72x72.png"
          vibrate := [200, 100, 200]
          data := { url := "/" } }] := by
  decide

/-- C14 as amended: for every push payload with `title`, `body` and optional `url` the
handler shows exactly one notification, with the payload's title and body; its target URL
is the payload's `url` when that field is present and not the empty string, and '/' when
the field is absent or the empty string. -/
theorem push_shows_notification (ui : UiEnv) (s : CacheStorage) (payload : PushPayload) :
    (pushHandler ui s (some (some payload))).trace =
      [Effect.showNotification
        { title := payload.title
          body := payload.body
          icon := "/icons/icon-192x192.png"
          badge := "/icons/icon-72x72.png"
          vibrate := [200, 100, 200]
          data := { url := orElse payload.url "/" } }] ∧
    (∀ u, payload.url = some u → u ≠ "" → orElse payload.url "/" = u) ∧
    (payload.url = none → orElse payload.url "/" = "/") ∧
    (payload.url = some "" → orElse payload.url "/" = "/") ∧
    (pushHandler ui s (some (some payload))).outcome =
      Ending.awaited (settle ui.showNotificationFails) := by
  refine ⟨rfl, ?_, ?_, ?_, rfl⟩
  · intro u hu hne
    simp [orElse, hu, hne]
  · intro hu
    simp [orElse, hu]
  · intro hu
    simp [orElse, hu]

/-- C14 as amended, at the payload of the scenario: title "Alert", body "High temp",
target '/dashboard.html'. -/
theorem push_shows_notification_witness :
    (pushHandler quietUi [] (some (some alertPayload))).trace =
      [Effect.showNotification alertNotification] ∧
    orElse alertPayload.url "/" = "/dashboard.html" :=
  ⟨(push_shows_notification quietUi [] alertPayload).1.trans (by decide),
   (push_shows_notification quietUi [] alertPayload).2.1 "/dashboard.html" rfl (by decide)⟩

/-- C15, evaluated for the notification of the scenario (target '/dashboard.html') and one
open window showing the dashboard page: the URL of the window is the absolute URL of the
target, which is not equal to the target as a string, so the handler focuses nothing and
opens a new window at '/dashboard.html'. -/
theorem notificationclick_relative_target_opens_window :
    dashboardWindow.url = resolveUrl onlineEnv alertNotification.data.url ∧
    (notificationclick quietUi [] alertNotification [dashboardWindow]).trace =
      [Effect.notificationClose, Effect.clientsMatchAll,
        Effect.openWindow "/dashboard.html"] ∧
    Effect.clientFocus dashboardWindow ∉
      (notificationclick quietUi [] alertNotification [dashboardWindow]).trace := by
  decide

/-- C16: the sync relay. The handler calls `doBackgroundSync` and hands its promise to
`event.waitUntil` exactly when the tag is 'pending-data-sync'; for every other tag it
issues no operation and returns. The promise of `doBackgroundSync` resolves: it does not
reject. -/
theorem sync_tag_filter (s : CacheStorage) (tag : String) :
    (((syncHandler s tag).trace = doBackgroundSync.1 ∧
        (syncHandler s tag).outcome = Ending.awaited doBackgroundSync.2) ↔
      tag = "pending-data-sync") ∧
    (tag ≠ "pending-data-sync" →
      (syncHandler s tag).trace = [] ∧ (syncHandler s tag).outcome = Ending.returned) ∧
    doBackgroundSync.2 = Settled.resolved () ∧
    doBackgroundSync.2 ≠ Settled.rejected := by
  refine ⟨?_, ?_, rfl, by decide⟩
  · by_cases ht : tag = "pending-data-sync"
    · simp [syncHandler, ht]
    · simp [syncHandler, ht, doBackgroundSync]
  · intro ht
    simp [syncHandler, ht]

/-- C16 at concrete tags: 'pending-data-sync' is relayed, 'other-sync' is not. -/
theorem sync_tag_filter_witness :
    (syncHandler [] "pending-data-sync").outcome = Ending.awaited (Settled.resolved ()) ∧
    (syncHandler [] "other-sync").outcome = Ending.returned :=
  ⟨(((sync_tag_filter [] "pending-data-sync").1).mpr rfl).2,
   ((sync_tag_filter [] "other-sync").2.1 (by decide)).2⟩

/-! The claims on the frame and on the order of operations -/

/-- The runs of the fetch handler, branch by branch. -/
theorem fetchHandler_cases (env : Env) (s : CacheStorage) (request : Request) :
    fetchHandler env s request = ⟨s, [], none⟩ ∨
    (∃ r, caches_match s request.url = some r ∧
      fetchHandler env s request =
        ⟨s, [Effect.cachesMatch request.url], some (Settled.resolved (some r))⟩) ∨
    (caches_match s request.url = none ∧ ∃ response,
      fetchHandler env s request =
        ⟨s, [Effect.cachesMatch request.url, Effect.fetch request.url],
          some (Settled.resolved response)⟩) ∨
    (caches_match s request.url = none ∧
      fetchHandler env s request =
        ⟨s, [Effect.cachesMatch request.url, Effect.fetch request.url,
              Effect.cachesMatch (resolveUrl env "/offline.html")],
          some (Settled.resolved (caches_match s (resolveUrl env "/offline.html")))⟩) ∨
    (caches_match s request.url = none ∧ ∃ r,
      fetchHandler env s request =
        ⟨storeCopy env s request.url r,
          [Effect.cachesMatch request.url, Effect.fetch request.url] ++
            storeTrace env request.url r,
          some (Settled.resolved (some r))⟩) := by
  by_cases hsw : startsWith request.url env.origin = true
  · cases hm : caches_match s request.url with
    | some r =>
      right; left
      exact ⟨r, rfl, fetchHandler_hit env s request r hsw hm⟩
    | none =>
      cases hn : env.net request.url with
      | rejected =>
        right; right; right; left
        exact ⟨rfl, fetchHandler_offline env s request hsw hm hn⟩
      | resolved response =>
        by_cases hnc : notCacheable response = true
        · right; right; left
          exact ⟨rfl, response, fetchHandler_passthrough env s request response hsw hm hn hnc⟩
        · cases response with
          | none => simp [notCacheable] at hnc
          | some r =>
            right; right; right; right
            exact ⟨rfl, r, fetchHandler_store env s request r hsw hm hn (by simpa using hnc)⟩
  · left
    exact fetchHandler_skip env s request (by simpa using hsw)

theorem mem_caches_open_of_mem (s : CacheStorage) (name : String) (g : String × Cache)
    (hg : g ∈ s) : g ∈ caches_open s name := by
  unfold caches_open
  split
  · exact hg
  · exact List.mem_append_left _ hg

theorem caches_keys_open (s : CacheStorage) (name n : String) :
    n ∈ caches_keys (caches_open s name) ↔ n ∈ caches_keys s ∨ n = name := by
  unfold caches_open
  by_cases h : name ∈ caches_keys s
  · rw [if_pos h]
    constructor
    · intro hn; exact Or.inl hn
    · rintro (hn | hn)
      · exact hn
      · rw [hn]; exact h
  · rw [if_neg h]
    simp [caches_keys]

theorem cache_match_none_ne (c : Cache) (key : String) (h : cache_match c key = none) :
    ∀ e ∈ c, e.1 ≠ key := by
  unfold cache_match at h
  rw [Option.map_eq_none', List.find?_eq_none] at h
  intro e he
  simpa using h e he

/-- What the fire-and-forget store of the fetch handler leaves of a storage in which the
key is not stored: no generation is removed, none but `CACHE_NAME` is created, and every
entry of every generation is kept. -/
theorem storeCopy_frame (env : Env) (s : CacheStorage) (key : String) (r : Response)
    (hmiss : caches_match s key = none) :
    (∀ n, n ∈ caches_keys s → n ∈ caches_keys (storeCopy env s key r)) ∧
    (∀ n, n ∈ caches_keys (storeCopy env s key r) → n ∈ caches_keys s ∨ n = CACHE_NAME) ∧
    (∀ g ∈ s, ∃ g' ∈ storeCopy env s key r, g'.1 = g.1 ∧ ∀ e ∈ g.2, e ∈ g'.2) := by
  unfold storeCopy
  by_cases ho : env.openFails CACHE_NAME = true
  · rw [if_pos ho]
    exact ⟨fun n hn => hn, fun n hn => Or.inl hn, fun g hg => ⟨g, hg, rfl, fun e he => he⟩⟩
  · rw [if_neg ho]
    by_cases hp : env.putFails CACHE_NAME key = true
    · rw [if_pos hp]
      refine ⟨?_, ?_, ?_⟩
      · intro n hn
        exact (caches_keys_open s CACHE_NAME n).mpr (Or.inl hn)
      · intro n hn
        exact (caches_keys_open s CACHE_NAME n).mp hn
      · intro g hg
        exact ⟨g, mem_caches_open_of_mem s CACHE_NAME g hg, rfl, fun e he => he⟩
    · rw [if_neg hp]
      refine ⟨?_, ?_, ?_⟩
      · intro n hn
        rw [caches_keys_cache_put]
        exact (caches_keys_open s CACHE_NAME n).mpr (Or.inl hn)
      · intro n hn
        rw [caches_keys_cache_put] at hn
        exact (caches_keys_open s CACHE_NAME n).mp hn
      · intro g hg
        have hne := cache_match_none_ne g.2 key (caches_match_none s key hmiss g hg)
        refine ⟨if g.1 = CACHE_NAME then (g.1, Cache.put g.2 key r) else g, ?_, ?_, ?_⟩
        · unfold cache_put
          exact List.mem_map.mpr ⟨g, mem_caches_open_of_mem s CACHE_NAME g hg, rfl⟩
        · by_cases hg1 : g.1 = CACHE_NAME <;> simp [hg1]
        · intro e he
          by_cases hg1 : g.1 = CACHE_NAME
          · rw [if_pos hg1]
            unfold Cache.put
            apply List.mem_append_left
            rw [List.mem_filter]
            exact ⟨he, by simpa using hne e he⟩
          · rw [if_neg hg1]
            exact he

/-- C17: the frame of the cache storage. The sync, push and notificationclick handlers
leave the cache storage as it is, for every storage and every event. The fetch handler
removes no generation, creates no generation other than 'poultry-farm-v3' and removes no
entry of any generation. -/
theorem storage_frame :
    (∀ (s : CacheStorage) (tag : String), (syncHandler s tag).storage = s) ∧
    (∀ (ui : UiEnv) (s : CacheStorage) (data : Option (Option PushPayload)),
      (pushHandler ui s data).storage = s) ∧
    (∀ (ui : UiEnv) (s : CacheStorage) (notification : Notification)
        (clientList : List WindowClient),
      (notificationclick ui s notification clientList).storage = s) ∧
    (∀ (env : Env) (s : CacheStorage) (request : Request),
      (∀ n, n ∈ caches_keys s → n ∈ caches_keys (fetchHandler env s request).storage) ∧
      (∀ n, n ∈ caches_keys (fetchHandler env s request).storage →
        n ∈ caches_keys s ∨ n = CACHE_NAME) ∧
      (∀ g ∈ s, ∃ g' ∈ (fetchHandler env s request).storage,
        g'.1 = g.1 ∧ ∀ e ∈ g.2, e ∈ g'.2)) := by
  refine ⟨?_, ?_, ?_, ?_⟩
  · intro s tag
    unfold syncHandler
    split <;> rfl
  · intro ui s data
    unfold pushHandler
    split <;> rfl
  · intro ui s notification clientList
    unfold notificationclick
    split
    · rfl
    · split <;> rfl
  · intro env s request
    have hsame : (∀ n, n ∈ caches_keys s → n ∈ caches_keys s) ∧
        (∀ n, n ∈ caches_keys s → n ∈ caches_keys s ∨ n = CACHE_NAME) ∧
        (∀ g ∈ s, ∃ g' ∈ s, g'.1 = g.1 ∧ ∀ e ∈ g.2, e ∈ g'.2) :=
      ⟨fun n hn => hn, fun n hn => Or.inl hn, fun g hg => ⟨g, hg, rfl, fun e he => he⟩⟩
    rcases fetchHandler_cases env s request with h | ⟨r, -, h⟩ | ⟨-, r, h⟩ | ⟨-, h⟩ | ⟨hm, r, h⟩
    · rw [h]; exact hsame
    · rw [h]; exact hsame
    · rw [h]; exact hsame
    · rw [h]; exact hsame
    · rw [h]; exact storeCopy_frame env s request.url r hm

/-- C17 at a concrete input: a fetch that stores a response keeps the stale generation
'poultry-farm-v2' of the storage. -/
theorem storage_frame_witness :
    "poultry-farm-v2" ∈ caches_keys
      (fetchHandler onlineEnv staleStorage ⟨"https://farm.example/data.json", "cors"⟩).storage :=
  (storage_frame.2.2.2 onlineEnv staleStorage ⟨"https://farm.example/data.json", "cors"⟩).1
    "poultry-farm-v2" (by decide)

/-- C18: the precache manifest. It is stored by install under the constant
'poultry-farm-v3', has no entry twice, contains the root document '/' and the offline
fallback target '/offline.html', and its entries under '/icons/' are exactly the eight
icons '/icons/icon-NxN.png' for N in 72, 96, 128, 144, 152, 192, 384, 512. -/
theorem manifest_shape :
    CACHE_NAME = "poultry-farm-v3" ∧
    install = installWith "poultry-farm-v3" urlsToCache ∧
    urlsToCache.Nodup ∧
    "/" ∈ urlsToCache ∧
    "/offline.html" ∈ urlsToCache ∧
    urlsToCache.filter (fun u => startsWith u "/icons/") = iconSizes.map iconPath ∧
    (iconSizes.map iconPath).length = 8 ∧
    urlsToCache.length = 18 := by
  refine ⟨rfl, rfl, urlsToCache_nodup, by decide, by decide, by decide, rfl, rfl⟩

/-- C19: one pass, no retry. For every request and every answer of the cache and of the
network, the operations of the fetch handler contain at most one network fetch and at most
one cache write; a network fetch is issued only when the cache lookup of the request
missed, it is the fetch of the request and it comes right after that lookup, which is the
first operation; and a cache write comes only after the fetch. -/
theorem fetch_one_pass (env : Env) (s : CacheStorage) (request : Request) :
    ((fetchHandler env s request).trace.filter Effect.isFetch).length ≤ 1 ∧
    ((fetchHandler env s request).trace.filter Effect.isPut).length ≤ 1 ∧
    (∀ u, Effect.fetch u ∈ (fetchHandler env s request).trace →
      u = request.url ∧ caches_match s request.url = none ∧
      ∃ rest, (fetchHandler env s request).trace =
        Effect.cachesMatch request.url :: Effect.fetch request.url :: rest) ∧
    (∀ n k r, Effect.cachePut n k r ∈ (fetchHandler env s request).trace →
      ∃ rest, (fetchHandler env s request).trace =
        Effect.cachesMatch request.url :: Effect.fetch request.url ::
          (rest ++ [Effect.cachePut n k r])) := by
  rcases fetchHandler_cases env s request with h | ⟨r, -, h⟩ | ⟨hm, r, h⟩ | ⟨hm, h⟩ | ⟨hm, r, h⟩
  · rw [h]
    simp
  · rw [h]
    simp [Effect.isFetch, Effect.isPut]
  · rw [h]
    refine ⟨by simp [Effect.isFetch], by simp [Effect.isPut], ?_, by simp⟩
    intro u hu
    simp at hu
    exact ⟨hu, hm, [], rfl⟩
  · rw [h]
    refine ⟨by simp [Effect.isFetch], by simp [Effect.isPut], ?_, by simp⟩
    intro u hu
    simp at hu
    exact ⟨hu, hm, _, rfl⟩
  · rw [h]
    unfold storeTrace
    by_cases ho : env.openFails CACHE_NAME = true
    · rw [if_pos ho]
      refine ⟨by simp [Effect.isFetch], by simp [Effect.isPut], ?_, by simp⟩
      intro u hu
      simp at hu
      exact ⟨hu, hm, _, rfl⟩
    · rw [if_neg ho]
      refine ⟨by simp [Effect.isFetch], by simp [Effect.isPut], ?_, ?_⟩
      · intro u hu
        simp at hu
        exact ⟨hu, hm, _, rfl⟩
      · intro n k r' hp
        simp at hp
        obtain ⟨hn, hk, hr⟩ := hp
        subst hn hk hr
        exact ⟨[Effect.cachesOpen CACHE_NAME], rfl⟩

/-- C19 at a concrete input: a miss answered by the network issues the lookup, one fetch,
the open and one put, in this order. -/
theorem fetch_one_pass_witness :
    ∃ rest, (fetchHandler onlineEnv [] ⟨"https://farm.example/data.json", "cors"⟩).trace =
      Effect.cachesMatch "https://farm.example/data.json" ::
        Effect.fetch "https://farm.example/data.json" :: rest :=
  ((fetch_one_pass onlineEnv [] ⟨"https://farm.example/data.json", "cors"⟩).2.2.1
    "https://farm.example/data.json" (by decide)).2.2

/-- C20: claiming the clients. When the operation awaited by activate resolves, the
operations are the enumeration, the deletion of every stale generation and then
`clients.claim`, which is called once and last, every stale generation being gone. When
the enumeration rejects, or the deletion of a stale generation rejects, `clients.claim` is
not called. It is never called more than once. -/
theorem activate_claims_once (env : Env) (s : CacheStorage) :
    ((activate env s).outcome = Settled.resolved () →
      (activate env s).trace =
        Effect.cachesKeys :: (staleNames s).map Effect.cachesDelete ++
          [Effect.clientsClaim] ∧
      (activate env s).trace.count Effect.clientsClaim = 1 ∧
      ∀ n ∈ staleNames s, n ∉ caches_keys (activate env s).storage) ∧
    (env.keysFails = true → Effect.clientsClaim ∉ (activate env s).trace) ∧
    ((∃ n ∈ staleNames s, env.deleteFails n = true) →
      Effect.clientsClaim ∉ (activate env s).trace) ∧
    (Effect.clientsClaim ∈ (activate env s).trace ↔
      (activate env s).outcome = Settled.resolved ()) ∧
    (activate env s).trace.count Effect.clientsClaim ≤ 1 := by
  have hnotdel : Effect.clientsClaim ∉ (staleNames s).map Effect.cachesDelete := by
    intro h
    obtain ⟨n, -, hn⟩ := List.mem_map.mp h
    cases hn
  have hcount0 : ((staleNames s).map Effect.cachesDelete).count Effect.clientsClaim = 0 :=
    List.count_eq_zero_of_not_mem hnotdel
  have hmem : Effect.clientsClaim ∈ (activate env s).trace ↔
      (activate env s).outcome = Settled.resolved () := by
    unfold activate
    by_cases hk : env.keysFails = true
    · simp [hk]
    · by_cases hd : (staleNames s).any env.deleteFails = true
      · simp only [hk, hd, if_true, if_false]
        constructor
        · intro h
          rcases List.mem_cons.mp h with h | h
          · cases h
          · exact absurd h hnotdel
        · intro h; cases h
      · simp [hk, hd]
  refine ⟨?_, ?_, ?_, hmem, ?_⟩
  · intro hok
    obtain ⟨hk, hdel⟩ := (activate_resolved_iff env s).mp hok
    have hany : ¬ (staleNames s).any env.deleteFails = true := by
      intro h
      obtain ⟨n, hn, hf⟩ := List.any_eq_true.mp h
      rw [hdel n hn] at hf
      cases hf
    have htrace : (activate env s).trace =
        Effect.cachesKeys :: (staleNames s).map Effect.cachesDelete ++
          [Effect.clientsClaim] := by
      simp [activate, hk, hany]
    refine ⟨htrace, ?_, ?_⟩
    · rw [htrace, List.cons_append, List.count_cons, List.count_append, hcount0]
      simp
    · intro n hn hmemn
      rw [activate_storage env s hk, deleteAll_stale_ok env s hdel] at hmemn
      unfold caches_keys at hmemn
      obtain ⟨g, hg, hgn⟩ := List.mem_map.mp hmemn
      have hcur := (List.mem_filter.mp hg).2
      subst hgn
      exact ((mem_staleNames s g.1).mp hn).2 (by simpa using hcur)
  · intro hk h
    have hout := hmem.mp h
    rw [(activate_resolved_iff env s)] at hout
    rw [hk] at hout
    cases hout.1
  · rintro ⟨n, hn, hf⟩ h
    have hout := (activate_resolved_iff env s).mp (hmem.mp h)
    rw [hout.2 n hn] at hf
    cases hf
  · by_cases hk : env.keysFails = true
    · have htr : (activate env s).trace = [Effect.cachesKeys] := by
        simp [activate, hk]
      rw [htr]
      decide
    · by_cases hd : (staleNames s).any env.deleteFails = true
      · have htr : (activate env s).trace =
            Effect.cachesKeys :: (staleNames s).map Effect.cachesDelete := by
          simp [activate, hk, hd]
        rw [htr, List.count_cons, hcount0]
        simp
      · have htr : (activate env s).trace =
            Effect.cachesKeys :: (staleNames s).map Effect.cachesDelete ++
              [Effect.clientsClaim] := by
          simp [activate, hk, hd]
        rw [htr, List.cons_append, List.count_cons, List.count_append, hcount0]
        simp

/-- C20 at concrete inputs: on the storage with v2 and v3 `clients.claim` comes last, after
the deletion of v2; when the enumeration rejects, and when the deletion of v1 rejects, it
is not called. -/
theorem activate_claims_once_witness :
    (activate onlineEnv twoGenerations).trace =
      [Effect.cachesKeys, Effect.cachesDelete "poultry-farm-v2", Effect.clientsClaim] ∧
    Effect.clientsClaim ∉ (activate keysFailsEnv twoGenerations).trace ∧
    Effect.clientsClaim ∉ (activate deleteFailsEnv threeGenerations).trace :=
  ⟨((activate_claims_once onlineEnv twoGenerations).1 (by decide)).1,
   (activate_claims_once keysFailsEnv twoGenerations).2.1 rfl,
   (activate_claims_once deleteFailsEnv threeGenerations).2.2.1
     ⟨"poultry-farm-v1", by decide, by decide⟩⟩

/-! The claims on the cache after install and after a store -/

/-- After a successful install and a successful activate, from any storage, the lookup of a
resolved manifest URL finds the response fetched at install time. -/
theorem caches_match_after_install_activate (envI envA : Env) (s0 : CacheStorage)
    (path : String) (r : Response)
    (hinst : (install envI s0).outcome = Settled.resolved ())
    (hact : (activate envA (install envI s0).storage).outcome = Settled.resolved ())
    (hpath : path ∈ urlsToCache)
    (hpre : precacheResponse envI (resolveUrl envI path) = some r) :
    caches_match (activate envA (install envI s0).storage).storage (resolveUrl envI path) =
      some r := by
  obtain ⟨-, hok, hnd⟩ := (installWith_resolved_iff CACHE_NAME urlsToCache envI s0).mp hinst
  obtain ⟨hk, hdel⟩ := (activate_resolved_iff envA _).mp hact
  have hentry := mem_precacheEntries envI urlsToCache path r hpath hpre
  have hkeys : ((precacheEntries envI urlsToCache).map (fun e => e.1)).Nodup := by
    rw [precacheEntries_keys envI urlsToCache hok]
    exact hnd
  have hstore : (install envI s0).storage =
      cache_putAll (caches_open s0 CACHE_NAME) CACHE_NAME
        (precacheEntries envI urlsToCache) := installWith_storage _ _ _ _ hinst
  rw [activate_storage envA _ hk, deleteAll_stale_ok envA _ hdel, hstore, cache_putAll_eq_map]
  apply caches_match_of_all
  · obtain ⟨c, hc⟩ := caches_get_isSome _ _ (mem_caches_keys_open s0 CACHE_NAME)
    have hmem := mem_of_caches_get _ _ _ hc
    intro hempty
    have hin : (CACHE_NAME, Cache.putAll c (precacheEntries envI urlsToCache)) ∈
        List.filter (fun g => decide (g.1 = CACHE_NAME))
          (List.map (fun g => if g.1 = CACHE_NAME then
            (g.1, Cache.putAll g.2 (precacheEntries envI urlsToCache)) else g)
            (caches_open s0 CACHE_NAME)) := by
      rw [List.mem_filter]
      refine ⟨List.mem_map.mpr ⟨(CACHE_NAME, c), hmem, by simp⟩, by simp⟩
    rw [hempty] at hin
    simp at hin
  · intro g hg
    obtain ⟨hgm, hgn⟩ := List.mem_filter.mp hg
    obtain ⟨g0, -, hg0⟩ := List.mem_map.mp hgm
    have hgn2 : g.1 = CACHE_NAME := by simpa using hgn
    by_cases h0 : g0.1 = CACHE_NAME
    · rw [if_pos h0] at hg0
      rw [← hg0]
      exact cache_match_putAll _ _ _ _ hkeys hentry
    · rw [if_neg h0] at hg0
      rw [hg0] at h0
      exact absurd hgn2 h0

/-- C21: the offline fallback is defined. After a successful install followed by a
successful activate, from any earlier storage, the lookup of '/offline.html' finds a
response, the one fetched at install time; so every same-origin request whose network
fetch rejects is answered with an actual response. -/
theorem offline_fallback_defined (envI envA env : Env) (s0 : CacheStorage)
    (horigin : envI.origin = env.origin)
    (hinst : (install envI s0).outcome = Settled.resolved ())
    (hact : (activate envA (install envI s0).storage).outcome = Settled.resolved ()) :
    ∃ r, precacheResponse envI (resolveUrl envI "/offline.html") = some r ∧
      caches_match (activate envA (install envI s0).storage).storage
        (resolveUrl env "/offline.html") = some r ∧
      ∀ request : Request, urlOrigin request.url = some env.origin →
        env.net request.url = Settled.rejected →
        ∃ r', (fetchHandler env (activate envA (install envI s0).storage).storage
          request).outcome = some (Settled.resolved (some r')) := by
  obtain ⟨-, hok, -⟩ := (installWith_resolved_iff CACHE_NAME urlsToCache envI s0).mp hinst
  have hmem : "/offline.html" ∈ urlsToCache := by decide
  obtain ⟨r, hr⟩ := Option.isSome_iff_exists.mp
    ((precacheOk_iff envI urlsToCache).mp hok "/offline.html" hmem)
  have hres : resolveUrl envI "/offline.html" = resolveUrl env "/offline.html" := by
    simp [resolveUrl, horigin]
  have hoff := caches_match_after_install_activate envI envA s0 "/offline.html" r
    hinst hact hmem hr
  rw [hres] at hoff
  refine ⟨r, hr, hoff, ?_⟩
  intro request hsame hnet
  have hsw := startsWith_urlOrigin _ _ hsame
  cases hm : caches_match (activate envA (install envI s0).storage).storage request.url with
  | some r' =>
    exact ⟨r', by rw [fetchHandler_hit env _ request r' hsw hm]⟩
  | none =>
    exact ⟨r, by rw [fetchHandler_offline env _ request hsw hm hnet, hoff]⟩

/-- C21 at concrete inputs: after install and activate on a storage that held a stale
generation, offline, a page that is not cached is answered with the offline document. -/
theorem offline_fallback_defined_witness :
    ∃ r', (fetchHandler offlineEnv (activate onlineEnv (install onlineEnv staleStorage).storage).storage
      ⟨"https://farm.example/reports.html", "navigate"⟩).outcome =
        some (Settled.resolved (some r')) := by
  obtain ⟨r, -, -, h⟩ := offline_fallback_defined onlineEnv onlineEnv offlineEnv staleStorage
    rfl (by decide) (by decide)
  exact h ⟨"https://farm.example/reports.html", "navigate"⟩ (by decide) rfl

theorem findSome?_eq_some_of_all {α β : Type} (l : List α) (h : α → Option β) (b : β)
    (hall : ∀ a ∈ l, h a = some b ∨ h a = none) (hex : ∃ a ∈ l, h a = some b) :
    l.findSome? h = some b := by
  induction l with
  | nil =>
    obtain ⟨a, ha, -⟩ := hex
    simp at ha
  | cons x rest ih =>
    rcases hall x (List.mem_cons_self x rest) with hx | hx
    · simp [List.findSome?, hx]
    · have hrest : ∃ a ∈ rest, h a = some b := by
        obtain ⟨a, ha, hab⟩ := hex
        rcases List.mem_cons.mp ha with hax | har
        · rw [hax, hx] at hab
          cases hab
        · exact ⟨a, har, hab⟩
      simp only [List.findSome?, hx]
      exact ih (fun a ha => hall a (List.mem_cons_of_mem x ha)) hrest

theorem mem_caches_open (s : CacheStorage) (name : String) (g : String × Cache)
    (hg : g ∈ caches_open s name) : g ∈ s ∨ g = (name, []) := by
  unfold caches_open at hg
  split at hg
  · exact Or.inl hg
  · rcases List.mem_append.mp hg with h | h
    · exact Or.inl h
    · exact Or.inr (List.mem_singleton.mp h)

/-- After the store of the fetch handler went through for a key that missed, the lookup of
the key finds the stored response. -/
theorem caches_match_after_store (s : CacheStorage) (key : String) (r : Response)
    (hmiss : caches_match s key = none) :
    caches_match (cache_put (caches_open s CACHE_NAME) CACHE_NAME key r) key = some r := by
  unfold caches_match cache_put
  rw [List.findSome?_map]
  apply findSome?_eq_some_of_all
  · intro g hg
    simp only [Function.comp]
    by_cases hn : g.1 = CACHE_NAME
    · left
      simp [hn, cache_match_put]
    · right
      rw [if_neg hn]
      rcases mem_caches_open s CACHE_NAME g hg with h | h
      · exact caches_match_none s key hmiss g h
      · rw [h] at hn
        exact absurd rfl hn
  · obtain ⟨c, hc⟩ := caches_get_isSome _ _ (mem_caches_keys_open s CACHE_NAME)
    refine ⟨(CACHE_NAME, c), mem_of_caches_get _ _ _ hc, ?_⟩
    simp [cache_match_put]

/-- C22: a miss becomes a hit. When a same-origin request misses the cache, the network
answers with a status-200 basic response `r` and the store goes through, a second request
with the same key is answered from the cache with `r`: the only operation is the lookup,
no network fetch is issued, whatever the network would answer. -/
theorem fetch_miss_then_hit (env env2 : Env) (s : CacheStorage) (request request2 : Request)
    (r : Response)
    (hsame : urlOrigin request.url = some env.origin)
    (hmiss : caches_match s request.url = none)
    (hnet : env.net request.url = Settled.resolved (some r))
    (h200 : r.status = 200) (hbasic : r.type = "basic")
    (hopen : env.openFails CACHE_NAME = false)
    (hput : env.putFails CACHE_NAME request.url = false)
    (hkey : request2.url = request.url) (horigin : env2.origin = env.origin) :
    (fetchHandler env s request).outcome = some (Settled.resolved (some r)) ∧
    (fetchHandler env2 (fetchHandler env s request).storage request2).outcome =
      some (Settled.resolved (some r)) ∧
    (fetchHandler env2 (fetchHandler env s request).storage request2).trace =
      [Effect.cachesMatch request.url] ∧
    (∀ u, Effect.fetch u ∉
      (fetchHandler env2 (fetchHandler env s request).storage request2).trace) := by
  have hsw := startsWith_urlOrigin _ _ hsame
  have hfirst := fetchHandler_store env s request r hsw hmiss hnet
    ((notCacheable_some r).mpr ⟨h200, hbasic⟩)
  have hstorage : (fetchHandler env s request).storage =
      cache_put (caches_open s CACHE_NAME) CACHE_NAME request.url r := by
    rw [hfirst]
    simp [storeCopy, hopen, hput]
  have hsw2 : startsWith request2.url env2.origin = true := by
    rw [hkey, horigin]
    exact hsw
  have hhit : caches_match (fetchHandler env s request).storage request2.url = some r := by
    rw [hstorage, hkey]
    exact caches_match_after_store s request.url r hmiss
  rw [fetchHandler_hit env2 _ request2 r hsw2 hhit, hkey]
  refine ⟨?_, rfl, rfl, by simp⟩
  rw [hfirst]

/-- C22 at concrete inputs: a page fetched online into the empty storage is then served
offline. -/
theorem fetch_miss_then_hit_witness :
    (fetchHandler offlineEnv
        (fetchHandler onlineEnv [] ⟨"https://farm.example/data.json", "cors"⟩).storage
        ⟨"https://farm.example/data.json", "cors"⟩).outcome =
      some (Settled.resolved (some ⟨200, "basic", "https://farm.example/data.json"⟩)) :=
  (fetch_miss_then_hit onlineEnv offlineEnv [] ⟨"https://farm.example/data.json", "cors"⟩
    ⟨"https://farm.example/data.json", "cors"⟩
    ⟨200, "basic", "https://farm.example/data.json"⟩
    (by decide) (by decide) rfl rfl rfl rfl rfl rfl rfl).2.1

end SW

namespace App

/-! The claims on the pending data and on the charts -/

/-- C23, evaluated on two and on three pending items: after all the timers have run the
stored list is the parsed list without its last item, not the empty list; only a list of
one item ends empty. -/
theorem syncPendingData_keeps_all_but_last :
    (syncPendingData ⟨some [Item.reference "[1]", Item.reference "[2]"], []⟩).pendingData =
      some [Item.reference "[1]"] ∧
    (syncPendingData
      ⟨some [Item.reference "[1]", Item.reference "[2]", Item.primitive "3"], []⟩).pendingData =
      some [Item.reference "[1]", Item.reference "[2]"] ∧
    (syncPendingData ⟨some [Item.reference "[1]"], []⟩).pendingData = some [] := by
  decide

theorem addDataToChart_below {α : Type} (fmt : Int → String) (chart : Chart α)
    (timestamp : Int) (values : List α) (h : chart.labels.length < 20) :
    addDataToChart fmt chart timestamp values =
      { labels := chart.labels ++ [fmt timestamp]
        datasets := chart.datasets.enum.map (fun d => d.2 ++ [values[d.1]?]) } := by
  unfold addDataToChart
  have hlen : ¬ (chart.labels ++ [fmt timestamp]).length > 20 := by
    simp only [List.length_append, List.length_singleton]
    omega
  simp only [hlen, if_false]

theorem addDataToChart_full {α : Type} (fmt : Int → String) (chart : Chart α)
    (timestamp : Int) (values : List α) (h : chart.labels.length = 20)
    (hsets : ∀ d ∈ chart.datasets, d.length = chart.labels.length) :
    addDataToChart fmt chart timestamp values =
      { labels := chart.labels.tail ++ [fmt timestamp]
        datasets := chart.datasets.enum.map (fun d => d.2.tail ++ [values[d.1]?]) } := by
  unfold addDataToChart
  have hlen : (chart.labels ++ [fmt timestamp]).length > 20 := by
    simp only [List.length_append, List.length_singleton]
    omega
  have hne : chart.labels ≠ [] := by
    intro h0
    rw [h0] at h
    simp at h
  simp only [hlen, if_true]
  congr 1
  · exact List.tail_append_of_ne_nil hne
  · rw [List.map_map]
    apply List.map_congr_left
    intro d hd
    have hd2 : d.2 ≠ [] := by
      intro h0
      have := hsets d.2 (List.snd_mem_of_mem_enum hd)
      rw [h0, h] at this
      simp at this
    simp only [Function.comp]
    exact List.tail_append_of_ne_nil hd2

theorem pushed_last {α : Type} (g : List (Option α) → List (Option α))
    (datasets : List (List (Option α))) (values : List α) (i : Nat) (d : List (Option α))
    (h : (datasets.enum.map (fun p => g p.2 ++ [values[p.1]?]))[i]? = some d) :
    d.getLast? = some values[i]? := by
  rw [List.getElem?_map, List.getElem?_enum] at h
  cases hi : datasets[i]? with
  | none => simp [hi] at h
  | some x =>
    simp only [hi, Option.map_some', Option.some.injEq] at h
    rw [← h]
    exact List.getLast?_concat _

/-- C24: the chart keeps at most 20 points. For a chart with at most 20 labels whose
datasets each have as many values as there are labels, after `addDataToChart` there are
still at most 20 labels, every dataset still has as many values as there are labels, the
number of datasets is unchanged, the new label is the last label and the new value of each
dataset is its last value. When the chart had 20 labels, exactly the oldest label and the
oldest value of each dataset are dropped; when it had fewer, nothing is dropped. -/
theorem addDataToChart_limit {α : Type} (fmt : Int → String) (chart : Chart α)
    (timestamp : Int) (values : List α)
    (hlen : chart.labels.length ≤ 20)
    (hsets : ∀ d ∈ chart.datasets, d.length = chart.labels.length) :
    (addDataToChart fmt chart timestamp values).labels.length ≤ 20 ∧
    (∀ d ∈ (addDataToChart fmt chart timestamp values).datasets,
      d.length = (addDataToChart fmt chart timestamp values).labels.length) ∧
    (addDataToChart fmt chart timestamp values).datasets.length = chart.datasets.length ∧
    (addDataToChart fmt chart timestamp values).labels.getLast? = some (fmt timestamp) ∧
    (∀ (i : Nat) (d : List (Option α)),
      (addDataToChart fmt chart timestamp values).datasets[i]? = some d →
      d.getLast? = some values[i]?) ∧
    (chart.labels.length = 20 →
      (addDataToChart fmt chart timestamp values).labels =
        chart.labels.tail ++ [fmt timestamp] ∧
      (addDataToChart fmt chart timestamp values).datasets =
        chart.datasets.enum.map (fun d => d.2.tail ++ [values[d.1]?])) ∧
    (chart.labels.length < 20 →
      (addDataToChart fmt chart timestamp values).labels = chart.labels ++ [fmt timestamp] ∧
      (addDataToChart fmt chart timestamp values).datasets =
        chart.datasets.enum.map (fun d => d.2 ++ [values[d.1]?])) := by
  by_cases hfull : chart.labels.length = 20
  · rw [addDataToChart_full fmt chart timestamp values hfull hsets]
    refine ⟨?_, ?_, ?_, ?_, ?_, ?_, ?_⟩
    · simp only [List.length_append, List.length_tail, List.length_singleton]
      omega
    · intro d hd
      obtain ⟨p, hp, hpd⟩ := List.mem_map.mp hd
      have := hsets p.2 (List.snd_mem_of_mem_enum hp)
      rw [← hpd]
      simp only [List.length_append, List.length_tail, List.length_singleton]
      omega
    · simp
    · exact List.getLast?_concat _
    · intro i d hd
      exact pushed_last List.tail chart.datasets values i d hd
    · intro _
      exact ⟨rfl, rfl⟩
    · intro h
      omega
  · have hlt : chart.labels.length < 20 := by omega
    rw [addDataToChart_below fmt chart timestamp values hlt]
    refine ⟨?_, ?_, ?_, ?_, ?_, ?_, ?_⟩
    · simp only [List.length_append, List.length_singleton]
      omega
    · intro d hd
      obtain ⟨p, hp, hpd⟩ := List.mem_map.mp hd
      have := hsets p.2 (List.snd_mem_of_mem_enum hp)
      rw [← hpd]
      simp only [List.length_append, List.length_singleton]
      omega
    · simp
    · exact List.getLast?_concat _
    · intro i d hd
      exact pushed_last (fun x => x) chart.datasets values i d hd
    · intro h
      exact absurd h hfull
    · intro _
      exact ⟨rfl, rfl⟩

/-- C24 at a concrete chart with two labels and two datasets. -/
theorem addDataToChart_limit_witness :
    (addDataToChart (fun t => toString t)
        (⟨["10:00", "10:01"], [[some 21, some 22], [some 60, some 61]]⟩ : Chart Nat)
        1002 [23, 62]).labels = ["10:00", "10:01", "1002"] ∧
    (addDataToChart (fun t => toString t)
        (⟨["10:00", "10:01"], [[some 21, some 22], [some 60, some 61]]⟩ : Chart Nat)
        1002 [23, 62]).datasets =
      [[some 21, some 22, some 23], [some 60, some 61, some 62]] :=
  (addDataToChart_limit (fun t => toString t)
    (⟨["10:00", "10:01"], [[some 21, some 22], [some 60, some 61]]⟩ : Chart Nat)
    1002 [23, 62] (by decide) (by decide)).2.2.2.2.2.2 (by decide)

/-! The claims on the login and on the time format -/

/-- C25: the demo pair. `simulateLogin` and `simulateLoginAPI` report success exactly when
the email is 'demo@poultryfarm.com' and the password is 'demo123'; this pair passes the
validation of the login form of `app.js` (`validateEmail` accepts the email and the
password has at least 6 characters) and the test of the form of `script.js`. -/
theorem login_demo_pair :
    (∀ email password : String, simulateLogin email password = true ↔
      (email = "demo@poultryfarm.com" ∧ password = "demo123")) ∧
    (∀ (email password : String) (rememberMe : Bool),
      (Script.simulateLoginAPI email password rememberMe).success = true ↔
        (email = "demo@poultryfarm.com" ∧ password = "demo123")) ∧
    validateEmail "demo@poultryfarm.com" = true ∧
    jsLength "demo123" ≥ 6 ∧
    loginFormError "demo@poultryfarm.com" "demo123" = none ∧
    Script.formPasses "demo@poultryfarm.com" "demo123" = true := by
  refine ⟨?_, ?_, by decide, by decide, by decide, by decide⟩
  · intro email password
    simp [simulateLogin]
  · intro email password rememberMe
    unfold Script.simulateLoginAPI
    split
    · rename_i h
      simp [h]
    · rename_i h
      simp only [Bool.false_eq_true, false_iff]
      exact h

/-- C25 at concrete inputs: the demo pair succeeds, a wrong password does not. -/
theorem login_demo_pair_witness :
    simulateLogin "demo@poultryfarm.com" "demo123" = true ∧
    (Script.simulateLoginAPI "demo@poultryfarm.com" "demo1234" false).success ≠ true :=
  ⟨(login_demo_pair.1 "demo@poultryfarm.com" "demo123").mpr ⟨rfl, rfl⟩,
   fun h => absurd ((login_demo_pair.2.1 "demo@poultryfarm.com" "demo1234" false).mp h).2
     (by decide)⟩

/-- C26: the age format. For `now`, `timestamp` and `d = now - timestamp` (in ms) integers
of absolute value at most 2^53, where the number arithmetic of the source is exact,
`formatTime` gives 'Just now' when `d < 60000`; `floor(d/60000)` and 'm ago', the number
between 1 and 59, when `60000 ≤ d < 3600000`; `floor(d/3600000)` and 'h ago', the number
between 1 and 23, when `3600000 ≤ d < 86400000`; and `floor(d/86400000)` and 'd ago', the
number at least 1, otherwise. The four demo notifications, of ages 600000, 1800000, 7200000
and 86400000 ms, render as '10m ago', '30m ago', '2h ago' and '1d ago'. -/
theorem formatTime_cases (now timestamp : Int)
    (hnow : isExact now = true) (hts : isExact timestamp = true)
    (hdiff : isExact (now - timestamp) = true) :
    (now - timestamp < 60000 → formatTime now timestamp = some "Just now") ∧
    (60000 ≤ now - timestamp → now - timestamp < 3600000 →
      formatTime now timestamp = some (toString ((now - timestamp) / 60000) ++ "m ago") ∧
      1 ≤ (now - timestamp) / 60000 ∧ (now - timestamp) / 60000 ≤ 59) ∧
    (3600000 ≤ now - timestamp → now - timestamp < 86400000 →
      formatTime now timestamp = some (toString ((now - timestamp) / 3600000) ++ "h ago") ∧
      1 ≤ (now - timestamp) / 3600000 ∧ (now - timestamp) / 3600000 ≤ 23) ∧
    (86400000 ≤ now - timestamp →
      formatTime now timestamp = some (toString ((now - timestamp) / 86400000) ++ "d ago") ∧
      1 ≤ (now - timestamp) / 86400000) ∧
    (0 ≤ now →
      (getDemoNotifications now).map (fun n => formatTime now n.timestamp) =
        [some "10m ago", some "30m ago", some "2h ago", some "1d ago"]) := by
  refine ⟨?_, ?_, ?_, ?_, ?_⟩
  · intro h
    simp [formatTime, hnow, hts, hdiff, h]
  · intro h1 h2
    have hn : ¬ now - timestamp < 60000 := by omega
    refine ⟨by simp [formatTime, hnow, hts, hdiff, hn, h2], by omega, by omega⟩
  · intro h1 h2
    have hn1 : ¬ now - timestamp < 60000 := by omega
    have hn2 : ¬ now - timestamp < 3600000 := by omega
    refine ⟨by simp [formatTime, hnow, hts, hdiff, hn1, hn2, h2], by omega, by omega⟩
  · intro h1
    have hn1 : ¬ now - timestamp < 60000 := by omega
    have hn2 : ¬ now - timestamp < 3600000 := by omega
    have hn3 : ¬ now - timestamp < 86400000 := by omega
    refine ⟨by simp [formatTime, hnow, hts, hdiff, hn1, hn2, hn3], by omega⟩
  · intro h0
    have hup : now ≤ 9007199254740992 := by
      simp only [isExact, Bool.and_eq_true, decide_eq_true_eq] at hnow
      exact hnow.2
    have hx : ∀ k : Int, 0 ≤ k → k ≤ 86400000 → isExact (now - k) = true := by
      intro k hk1 hk2
      simp only [isExact, Bool.and_eq_true, decide_eq_true_eq]
      constructor <;> omega
    have e1 : now - (now - 600000) = 600000 := by omega
    have e2 : now - (now - 1800000) = 1800000 := by omega
    have e3 : now - (now - 7200000) = 7200000 := by omega
    have e4 : now - (now - 86400000) = 86400000 := by omega
    simp only [getDemoNotifications, List.map_cons, List.map_nil, formatTime, hnow,
      hx 600000 (by decide) (by decide), hx 1800000 (by decide) (by decide),
      hx 7200000 (by decide) (by decide), hx 86400000 (by decide) (by decide),
      e1, e2, e3, e4]
    decide

/-- C26 at a concrete age of 59 minutes and 59 seconds. -/
theorem formatTime_cases_witness :
    formatTime 1700000000000 (1700000000000 - 3599000) = some "59m ago" :=
  ((formatTime_cases 1700000000000 (1700000000000 - 3599000)
    (by decide) (by decide) (by decide)).2.1 (by decide) (by decide)).1.trans (by decide)

/-! The claims on the reconnection -/

theorem attemptReconnect_le (st : Reconnect) (h : st.reconnectAttempts ≤ 5) :
    (attemptReconnect st).reconnectAttempts ≤ 5 := by
  unfold attemptReconnect MAX_RECONNECT_ATTEMPTS
  split
  · exact h
  · simp only
    omega

theorem runSocket_le (events : List SocketEvent) (st : Reconnect)
    (h : st.reconnectAttempts ≤ 5) : (runSocket st events).reconnectAttempts ≤ 5 := by
  unfold runSocket
  induction events generalizing st with
  | nil => exact h
  | cons e rest ih =>
    rw [List.foldl_cons]
    apply ih
    cases e with
    | opened => simp [onopen]
    | closed => exact attemptReconnect_le st h

theorem runSocket_exhausted (k : Nat) (sch : List Nat) :
    runSocket ⟨5, sch⟩ (List.replicate k SocketEvent.closed) = ⟨5, sch⟩ := by
  unfold runSocket
  induction k with
  | zero => rfl
  | succ n ih =>
    rw [List.replicate_succ, List.foldl_cons]
    exact ih

/-- C28: at most five reconnects between two successful connections. Over any sequence of
openings and closings the counter `reconnectAttempts` stays at most
`MAX_RECONNECT_ATTEMPTS` = 5. With the counter at `n < 5` a closing schedules a reconnect
after `min(1000 * 2^n, 30000)` ms, which is `1000 * 2^n` (1000, 2000, 4000, 8000, 16000),
below the cap of 30000, and the counter becomes `n + 1`. With the counter at 5 a closing
schedules nothing and leaves the counter, until an opening resets it to 0. After an
opening, `k` closings in a row schedule the first `k` of these five delays and no more. -/
theorem reconnect_bounded :
    MAX_RECONNECT_ATTEMPTS = 5 ∧
    (∀ (st : Reconnect) (events : List SocketEvent), st.reconnectAttempts ≤ 5 →
      (runSocket st events).reconnectAttempts ≤ 5) ∧
    (∀ (n : Nat) (sch : List Nat), n < 5 →
      attemptReconnect ⟨n, sch⟩ = ⟨n + 1, sch ++ [min (1000 * 2 ^ n) 30000]⟩ ∧
      min (1000 * 2 ^ n) 30000 = 1000 * 2 ^ n ∧ 1000 * 2 ^ n < 30000) ∧
    [0, 1, 2, 3, 4].map (fun n => min (1000 * 2 ^ n) 30000) =
      [1000, 2000, 4000, 8000, 16000] ∧
    (∀ sch : List Nat, attemptReconnect ⟨5, sch⟩ = ⟨5, sch⟩) ∧
    (∀ st : Reconnect, (onopen st).reconnectAttempts = 0) ∧
    (∀ (st : Reconnect) (k : Nat),
      (runSocket (onopen st) (List.replicate k SocketEvent.closed)).scheduled =
        st.scheduled ++ [1000, 2000, 4000, 8000, 16000].take k) := by
  refine ⟨rfl, fun st events h => runSocket_le events st h, ?_, by decide, ?_, ?_, ?_⟩
  · intro n sch hn
    interval_cases n <;> exact ⟨rfl, by decide, by decide⟩
  · intro sch
    rfl
  · intro st
    rfl
  · intro st k
    rcases Nat.lt_or_ge k 5 with hk | hk
    · interval_cases k <;>
        simp [runSocket, onopen, attemptReconnect, MAX_RECONNECT_ATTEMPTS, List.replicate]
    · obtain ⟨m, rfl⟩ := Nat.exists_eq_add_of_le hk
      have hsplit : List.replicate (5 + m) SocketEvent.closed =
          List.replicate 5 SocketEvent.closed ++ List.replicate m SocketEvent.closed := by
        rw [List.replicate_add]
      have hfive : runSocket (onopen st) (List.replicate 5 SocketEvent.closed) =
          ⟨5, st.scheduled ++ [1000, 2000, 4000, 8000, 16000]⟩ := by
        simp [runSocket, onopen, attemptReconnect, MAX_RECONNECT_ATTEMPTS, List.replicate]
      have hrun : runSocket (onopen st) (List.replicate (5 + m) SocketEvent.closed) =
          runSocket (runSocket (onopen st) (List.replicate 5 SocketEvent.closed))
            (List.replicate m SocketEvent.closed) := by
        rw [hsplit]
        unfold runSocket
        rw [List.foldl_append]
      rw [hrun, hfive, runSocket_exhausted]
      simp

/-- C28 at a concrete sequence: eight closings in a row after start schedule five
reconnects, and the counter stops at 5. -/
theorem reconnect_bounded_witness :
    (runSocket ⟨0, []⟩ (List.replicate 8 SocketEvent.closed)).reconnectAttempts ≤ 5 ∧
    attemptReconnect ⟨4, []⟩ = ⟨5, [16000]⟩ :=
  ⟨reconnect_bounded.2.1 ⟨0, []⟩ (List.replicate 8 SocketEvent.closed) (by decide),
   (reconnect_bounded.2.2.1 4 [] (by decide)).1⟩

/-! The claims on the notifications -/

/-- C30: the notification list. On the current list (the stored one, or the demo
notifications when nothing is stored): `dismissNotification(id)` stores exactly the
notifications whose id differs from `id`, in their order and unchanged, so the list does
not grow and no notification of that id remains; `markNotificationsAsRead` keeps the
number, the order and every other field of the notifications and sets `unread` to false
on each, so the unread count is 0; `addNotification` puts the new notification first and
keeps the others in order. -/
theorem notifications_ops (now : Int) (stored : Option (List Notification)) :
    (∀ id : Nat,
      dismissNotification now stored id =
        (loadStored now stored).filter (fun n => decide (n.id ≠ id)) ∧
      (dismissNotification now stored id).Sublist (loadStored now stored) ∧
      (dismissNotification now stored id).length ≤ (loadStored now stored).length ∧
      (∀ n ∈ dismissNotification now stored id, n.id ≠ id) ∧
      (∀ n ∈ loadStored now stored, n.id ≠ id → n ∈ dismissNotification now stored id)) ∧
    ((markNotificationsAsRead now stored).length = (loadStored now stored).length ∧
      (markNotificationsAsRead now stored).map
          (fun n => (n.id, n.title, n.message, n.type, n.timestamp)) =
        (loadStored now stored).map
          (fun n => (n.id, n.title, n.message, n.type, n.timestamp)) ∧
      (∀ n ∈ markNotificationsAsRead now stored, n.unread = false) ∧
      unreadCount (markNotificationsAsRead now stored) = 0) ∧
    (∀ notification : Notification,
      addNotification now stored notification = notification :: loadStored now stored ∧
      (addNotification now stored notification).head? = some notification ∧
      (addNotification now stored notification).tail = loadStored now stored) := by
  refine ⟨?_, ?_, ?_⟩
  · intro id
    refine ⟨rfl, List.filter_sublist _, List.length_filter_le _ _, ?_, ?_⟩
    · intro n hn
      have := (List.mem_filter.mp hn).2
      simpa using this
    · intro n hn hne
      exact List.mem_filter.mpr ⟨hn, by simpa using hne⟩
  · have hall : ∀ n ∈ markNotificationsAsRead now stored, n.unread = false := by
      intro n hn
      obtain ⟨m, -, hm⟩ := List.mem_map.mp hn
      rw [← hm]
    refine ⟨by simp [markNotificationsAsRead], ?_, hall, ?_⟩
    · unfold markNotificationsAsRead
      rw [List.map_map]
      rfl
    · unfold unreadCount
      rw [List.length_eq_zero, List.filter_eq_nil_iff]
      intro n hn
      simp [hall n hn]
  · intro notification
    exact ⟨rfl, rfl, rfl⟩

/-- C30 on the demo notifications: dismissing the notification 2 leaves 1, 3 and 4, and
after marking as read nothing is unread. -/
theorem notifications_ops_witness :
    (dismissNotification 1700000000000 none 2).map (fun n => n.id) = [1, 3, 4] ∧
    unreadCount (markNotificationsAsRead 1700000000000 none) = 0 :=
  ⟨(congrArg (List.map (fun n => n.id))
      ((notifications_ops 1700000000000 none).1 2).1).trans (by decide),
   (notifications_ops 1700000000000 none).2.1.2.2.2⟩

end App

namespace PWAInstall

/-! The claim on the install prompt -/

/-- C27: the saved install prompt is a single slot. In `pwa-install.js` and in
`initPWAInstall` of `app.js` alike: the install function does nothing when no prompt is
saved; when the choice of the user resolves, accepted or dismissed, the saved prompt is
cleared and the install button hidden, so a later call of the install function calls no
`prompt()`, until a new `beforeinstallprompt` event is saved, whose prompt the next call
shows; and `appinstalled` clears the slot and hides the button too. -/
theorem install_prompt_single_slot :
    (∀ st : State, st.deferredPrompt = none → installPWA st = st) ∧
    (∀ (outcome : String) (st : State),
      (userChoice outcome st).deferredPrompt = none ∧
      (userChoice outcome st).display = "none" ∧
      installPWA (userChoice outcome st) = userChoice outcome st ∧
      (installPWA (userChoice outcome (installPWA st))).prompted = (installPWA st).prompted) ∧
    (∀ (outcome : String) (st : State) (event : Nat),
      (installPWA (handleBeforeInstallPrompt event (userChoice outcome st))).prompted =
        st.prompted ++ [event]) ∧
    (∀ st : State,
      (handleAppInstalled st).deferredPrompt = none ∧
      (handleAppInstalled st).display = "none" ∧
      installPWA (handleAppInstalled st) = handleAppInstalled st) ∧
    (∀ st : App.InstallState, st.deferredPrompt = none → App.installApp st = st) ∧
    (∀ (outcome : String) (st : App.InstallState),
      (App.installAppChoice outcome st).deferredPrompt = none ∧
      (App.installAppChoice outcome st).display = "none" ∧
      App.installApp (App.installAppChoice outcome st) = App.installAppChoice outcome st ∧
      (App.installApp (App.installAppChoice outcome (App.installApp st))).prompted =
        (App.installApp st).prompted) ∧
    (∀ (outcome : String) (st : App.InstallState) (e : Nat),
      (App.installApp (App.onBeforeInstallPrompt e (App.installAppChoice outcome st))).prompted =
        st.prompted ++ [e]) ∧
    (∀ st : App.InstallState,
      (App.onAppInstalled st).deferredPrompt = none ∧
      (App.onAppInstalled st).display = "none" ∧
      App.installApp (App.onAppInstalled st) = App.onAppInstalled st) := by
  refine ⟨?_, ?_, ?_, ?_, ?_, ?_, ?_, ?_⟩
  · intro st h
    simp [installPWA, h]
  · intro outcome st
    exact ⟨rfl, rfl, rfl, rfl⟩
  · intro outcome st event
    rfl
  · intro st
    exact ⟨rfl, rfl, rfl⟩
  · intro st h
    simp [App.installApp, h]
  · intro outcome st
    exact ⟨rfl, rfl, rfl, rfl⟩
  · intro outcome st e
    rfl
  · intro st
    exact ⟨rfl, rfl, rfl⟩

/-- C27 at a concrete run: a prompt is saved, shown and dismissed; a second click shows no
prompt. -/
theorem install_prompt_single_slot_witness :
    installPWA ⟨none, "none", [], []⟩ = ⟨none, "none", [], []⟩ ∧
    (installPWA (userChoice "dismissed"
      (installPWA (handleBeforeInstallPrompt 1 ⟨none, "none", [], []⟩)))).prompted = [1] :=
  ⟨install_prompt_single_slot.1 ⟨none, "none", [], []⟩ rfl,
   (install_prompt_single_slot.2.1 "dismissed"
      (handleBeforeInstallPrompt 1 ⟨none, "none", [], []⟩)).2.2.2⟩

end PWAInstall

namespace App

/-! The claim on `validateEmail` -/

theorem classify_atSign (c : Char) : classify c = CharClass.atSign ↔ c = '@' := by
  unfold classify
  by_cases h1 : c = '@'
  · simp [h1]
  · by_cases h2 : c = '.'
    · simp [h1, h2]
    · by_cases h3 : isWhitespace c = true <;> simp [h1, h2, h3]

theorem classify_dot (c : Char) : classify c = CharClass.dot ↔ c = '.' := by
  unfold classify
  by_cases h1 : c = '@'
  · subst h1
    simp
  · by_cases h2 : c = '.'
    · simp [h2]
    · by_cases h3 : isWhitespace c = true <;> simp [h1, h2, h3]

theorem classify_plain (c : Char) :
    (classify c = CharClass.dot ∨ classify c = CharClass.other) ↔
      (isWhitespace c = false ∧ c ≠ '@') := by
  unfold classify
  by_cases h1 : c = '@'
  · subst h1
    simp
  · by_cases h2 : c = '.'
    · subst h2
      simp
      decide
    · by_cases h3 : isWhitespace c = true <;> simp [h1, h2, h3]

theorem notSpaceAt_rmatch (t : List CharClass) :
    notSpaceAt.rmatch t = true ↔ (t = [CharClass.dot] ∨ t = [CharClass.other]) := by
  unfold notSpaceAt
  rw [RegularExpression.add_rmatch_iff, RegularExpression.char_rmatch_iff,
    RegularExpression.char_rmatch_iff]

theorem flatten_singletons {α : Type} (l : List α) :
    (l.map (fun k => [k])).flatten = l := by
  induction l with
  | nil => rfl
  | cons a rest ih => simp [List.flatten, ih]

/-- The repetition `[^\s@]+` matches the non-empty lists of plain classes. -/
theorem oneOrMore_rmatch (l : List CharClass) :
    (oneOrMore notSpaceAt).rmatch l = true ↔
      (l ≠ [] ∧ ∀ k ∈ l, k = CharClass.dot ∨ k = CharClass.other) := by
  unfold oneOrMore
  rw [RegularExpression.mul_rmatch_iff]
  constructor
  · rintro ⟨t, u, hl, ht, hu⟩
    rw [notSpaceAt_rmatch] at ht
    rw [RegularExpression.star_rmatch_iff] at hu
    obtain ⟨S, hS, hall⟩ := hu
    have hu2 : ∀ k ∈ u, k = CharClass.dot ∨ k = CharClass.other := by
      intro k hk
      rw [hS, List.mem_flatten] at hk
      obtain ⟨x, hx, hkx⟩ := hk
      have hxm := (notSpaceAt_rmatch x).mp (hall x hx).2
      rcases hxm with hx1 | hx1 <;> rw [hx1] at hkx <;> simp at hkx <;> simp [hkx]
    subst hl
    rcases ht with ht | ht
    · subst ht
      refine ⟨by simp, ?_⟩
      intro k hk
      rcases List.mem_append.mp hk with h | h
      · left; simpa using h
      · exact hu2 k h
    · subst ht
      refine ⟨by simp, ?_⟩
      intro k hk
      rcases List.mem_append.mp hk with h | h
      · right; simpa using h
      · exact hu2 k h
  · rintro ⟨hne, hall⟩
    cases l with
    | nil => exact absurd rfl hne
    | cons k rest =>
      refine ⟨[k], rest, rfl, ?_, ?_⟩
      · rw [notSpaceAt_rmatch]
        rcases hall k (List.mem_cons_self k rest) with h | h
        · left; rw [h]
        · right; rw [h]
      · rw [RegularExpression.star_rmatch_iff]
        refine ⟨rest.map (fun k => [k]), (flatten_singletons rest).symm, ?_⟩
        intro t ht
        obtain ⟨j, hj, hjt⟩ := List.mem_map.mp ht
        subst hjt
        refine ⟨by simp, ?_⟩
        rw [notSpaceAt_rmatch]
        rcases hall j (List.mem_cons_of_mem k hj) with h | h
        · left; rw [h]
        · right; rw [h]

/-- The pattern of `validateEmail` on classes: three non-empty runs of plain classes,
separated by one '@' and one '.'. -/
theorem re_rmatch (l : List CharClass) :
    re.rmatch l = true ↔
      ∃ a b c, l = a ++ CharClass.atSign :: (b ++ CharClass.dot :: c) ∧
        (a ≠ [] ∧ ∀ k ∈ a, k = CharClass.dot ∨ k = CharClass.other) ∧
        (b ≠ [] ∧ ∀ k ∈ b, k = CharClass.dot ∨ k = CharClass.other) ∧
        (c ≠ [] ∧ ∀ k ∈ c, k = CharClass.dot ∨ k = CharClass.other) := by
  unfold re
  constructor
  · intro h
    rw [RegularExpression.mul_rmatch_iff] at h
    obtain ⟨t4, c, h4, ht4, hc⟩ := h
    rw [RegularExpression.mul_rmatch_iff] at ht4
    obtain ⟨t3, d, h3, ht3, hd⟩ := ht4
    rw [RegularExpression.mul_rmatch_iff] at ht3
    obtain ⟨t2, b, h2, ht2, hb⟩ := ht3
    rw [RegularExpression.mul_rmatch_iff] at ht2
    obtain ⟨a, e, h1, ha, he⟩ := ht2
    rw [RegularExpression.char_rmatch_iff] at hd he
    subst h4 h3 h2 h1 hd he
    refine ⟨a, b, c, by simp, (oneOrMore_rmatch a).mp ha, (oneOrMore_rmatch b).mp hb,
      (oneOrMore_rmatch c).mp hc⟩
  · rintro ⟨a, b, c, hl, ha, hb, hc⟩
    rw [RegularExpression.mul_rmatch_iff]
    refine ⟨a ++ [CharClass.atSign] ++ b ++ [CharClass.dot], c, by simp [hl], ?_,
      (oneOrMore_rmatch c).mpr hc⟩
    rw [RegularExpression.mul_rmatch_iff]
    refine ⟨a ++ [CharClass.atSign] ++ b, [CharClass.dot], rfl, ?_,
      (RegularExpression.char_rmatch_iff _ _).mpr rfl⟩
    rw [RegularExpression.mul_rmatch_iff]
    refine ⟨a ++ [CharClass.atSign], b, rfl, ?_, (oneOrMore_rmatch b).mpr hb⟩
    rw [RegularExpression.mul_rmatch_iff]
    exact ⟨a, [CharClass.atSign], rfl, (oneOrMore_rmatch a).mpr ha,
      (RegularExpression.char_rmatch_iff _ _).mpr rfl⟩

theorem plain_run (L : List Char) :
    (L.map classify ≠ [] ∧ ∀ k ∈ L.map classify, k = CharClass.dot ∨ k = CharClass.other) ↔
      (L ≠ [] ∧ ∀ ch ∈ L, isWhitespace ch = false ∧ ch ≠ '@') := by
  constructor
  · rintro ⟨hne, hall⟩
    refine ⟨fun h => hne (by rw [h]; rfl), ?_⟩
    intro ch hch
    exact (classify_plain ch).mp (hall _ (List.mem_map_of_mem classify hch))
  · rintro ⟨hne, hall⟩
    refine ⟨fun h => hne (List.map_eq_nil_iff.mp h), ?_⟩
    intro k hk
    obtain ⟨ch, hch, hk2⟩ := List.mem_map.mp hk
    rw [← hk2]
    exact (classify_plain ch).mpr (hall ch hch)

/-- The strings `validateEmail` accepts: three non-empty runs of characters that are
neither whitespace nor '@', separated by one '@' and one '.'. -/
theorem validateEmail_iff_split (email : String) :
    validateEmail email = true ↔
      ∃ A B C : List Char, email.data = A ++ '@' :: (B ++ '.' :: C) ∧
        (A ≠ [] ∧ ∀ ch ∈ A, isWhitespace ch = false ∧ ch ≠ '@') ∧
        (B ≠ [] ∧ ∀ ch ∈ B, isWhitespace ch = false ∧ ch ≠ '@') ∧
        (C ≠ [] ∧ ∀ ch ∈ C, isWhitespace ch = false ∧ ch ≠ '@') := by
  unfold validateEmail
  rw [re_rmatch]
  constructor
  · rintro ⟨a, b, c, hl, ha, hb, hc⟩
    obtain ⟨A, rest, hdata, hA, hrest⟩ := List.map_eq_append_iff.mp hl
    obtain ⟨x, rest2, hrest1, hx, hrest2⟩ := List.map_eq_cons_iff.mp hrest
    obtain ⟨B, rest3, hrest2a, hB, hrest3⟩ := List.map_eq_append_iff.mp hrest2
    obtain ⟨y, C, hrest3a, hy, hC⟩ := List.map_eq_cons_iff.mp hrest3
    have hx2 := (classify_atSign x).mp hx
    have hy2 := (classify_dot y).mp hy
    subst hA hB hC hx2 hy2 hrest3a hrest2a hrest1
    exact ⟨A, B, C, hdata, (plain_run A).mp ha, (plain_run B).mp hb, (plain_run C).mp hc⟩
  · rintro ⟨A, B, C, hdata, hA, hB, hC⟩
    refine ⟨A.map classify, B.map classify, C.map classify, ?_,
      (plain_run A).mpr hA, (plain_run B).mpr hB, (plain_run C).mpr hC⟩
    rw [hdata]
    have h1 : classify '@' = CharClass.atSign := by decide
    have h2 : classify '.' = CharClass.dot := by decide
    simp [h1, h2]

theorem count_at_zero (L : List Char) (h : ∀ ch ∈ L, isWhitespace ch = false ∧ ch ≠ '@') :
    L.count '@' = 0 := by
  rw [List.count_eq_zero]
  intro hmem
  exact (h '@' hmem).2 rfl

/-- C29: `validateEmail` accepts a string exactly when it has the shape the specification
describes: no whitespace, exactly one '@' with at least one character before it, and after
the '@' a '.' with at least one character before it and at least one after it. It rejects
the empty string, 'a@b', 'a@.b', 'a@b.' and every string with two '@'. -/
theorem validateEmail_iff_shape :
    (∀ email : String, validateEmail email = true ↔ emailShape email) ∧
    validateEmail "" = false ∧
    validateEmail "a@b" = false ∧
    validateEmail "a@.b" = false ∧
    validateEmail "a@b." = false ∧
    (∀ email : String, email.data.count '@' = 2 → validateEmail email = false) ∧
    validateEmail "a@b.c" = true := by
  have hiff : ∀ email : String, validateEmail email = true ↔ emailShape email := by
    intro email
    rw [validateEmail_iff_split]
    unfold emailShape
    constructor
    · rintro ⟨A, B, C, hdata, hA, hB, hC⟩
      refine ⟨?_, ?_, A, B ++ '.' :: C, hdata, hA.1, B, C, rfl, hB.1, hC.1⟩
      · intro ch hch
        rw [hdata] at hch
        simp only [List.mem_append, List.mem_cons] at hch
        rcases hch with h | h | h | h | h
        · exact (hA.2 ch h).1
        · rw [h]; decide
        · exact (hB.2 ch h).1
        · rw [h]; decide
        · exact (hC.2 ch h).1
      · rw [hdata, List.count_append, List.count_cons, List.count_append, List.count_cons,
          count_at_zero A hA.2, count_at_zero B hB.2, count_at_zero C hC.2]
        decide
    · rintro ⟨hws, hcount, before, after, hdata, hbefore, x, y, hafter, hx, hy⟩
      subst hafter
      rw [hdata, List.count_append, List.count_cons, List.count_append, List.count_cons]
        at hcount
      have hdot : (if ('.' == '@') = true then 1 else 0) = 0 := by decide
      have hat : (if ('@' == '@') = true then 1 else 0) = 1 := by decide
      rw [hdot, hat] at hcount
      have hb0 : before.count '@' = 0 := by omega
      have hx0 : x.count '@' = 0 := by omega
      have hy0 : y.count '@' = 0 := by omega
      have hpart : ∀ L : List Char, (∀ ch ∈ L, ch ∈ email.data) → L.count '@' = 0 →
          ∀ ch ∈ L, isWhitespace ch = false ∧ ch ≠ '@' := by
        intro L hsub hL ch hch
        refine ⟨hws ch (hsub ch hch), ?_⟩
        intro heq
        rw [heq] at hch
        exact (List.count_eq_zero.mp hL) hch
      refine ⟨before, x, y, hdata, ⟨hbefore, ?_⟩, ⟨hx, ?_⟩, ⟨hy, ?_⟩⟩
      · apply hpart before _ hb0
        intro ch hch
        rw [hdata]
        simp [hch]
      · apply hpart x _ hx0
        intro ch hch
        rw [hdata]
        simp [hch]
      · apply hpart y _ hy0
        intro ch hch
        rw [hdata]
        simp [hch]
  refine ⟨hiff, by decide, by decide, by decide, by decide, ?_, by decide⟩
  intro email h2
  cases hv : validateEmail email with
  | false => rfl
  | true =>
    have := ((hiff email).mp hv).2.1
    omega

/-- C29 at a concrete address with two '@'. -/
theorem validateEmail_iff_shape_witness :
    validateEmail "a@b@c.d" = false ∧ emailShape "demo@poultryfarm.com" :=
  ⟨validateEmail_iff_shape.2.2.2.2.2.1 "a@b@c.d" (by decide),
   (validateEmail_iff_shape.1 "demo@poultryfarm.com").mp (by decide)⟩

end App
